import Mathlib

/-!
# visit-aalst: the participant server (`server/server.js`)

A shallow embedding of the four request handlers of `server.js` and of the
JavaScript and Node primitives they rely on:

* JSON values, JavaScript truthiness, the `||` operator and what
  `JSON.stringify` followed by `JSON.parse` does to a value;
* `path.join`, `path.basename` and `path.extname` (POSIX flavour), used by
  `jsonPathFor` and by the upload storage, and the resolution of a path
  against the working directory;
* the file system, as a map from absolute paths to files and directories;
* the handlers `POST /api/participants`, `GET /api/answers/:participantId`,
  `POST /api/answers/:participantId` and `POST /api/upload/:participantId`,
  and the two storage callbacks handed to multer.

The values a handler obtains from outside the program are arguments of the
model: the request body, the route parameter, the identifier `nanoid()`
returns, the string `new Date().toISOString()` returns and the number
`Date.now()` returns. The route parameter `:participantId` is the decoded
path segment of the URL: any string, which may contain `/` (sent as `%2F`).
-/

namespace VisitAalst

/-! ## JSON values -/

/-- A value produced by `JSON.parse`. Finite numbers are represented by
integers, which is enough to tell zero (falsy) from the other numbers;
`negZero` is the number `-0`, which `JSON.parse` returns for the literal `-0`;
`inf` stands for `Infinity` and `-Infinity`, which `JSON.parse` returns for a
number literal beyond the double range such as `1e400`. An object is the list
of its own properties; a property is read at its first entry. -/
inductive JSON where
  | null
  | bool (b : Bool)
  | num (n : Int)
  | negZero
  | inf (negative : Bool)
  | str (s : String)
  | arr (items : List JSON)
  | obj (props : List (String × JSON))

namespace JSON

/-- JavaScript truthiness of a JSON value: `null`, `false`, `0`, `-0` and `""`
are falsy; every other number (`Infinity` too), every array and every object
(also the empty ones) is truthy. -/
def truthy : JSON → Bool
  | null => false
  | bool b => b
  | num n => n != 0
  | negZero => false
  | inf _ => true
  | str s => s != ""
  | arr _ => true
  | obj _ => true

/-- The expression `v.k` for a value `v` that is not `null`: the property of
an object, `undefined` (here `none`) when the object has no such property or
`v` is an array or a primitive. Only the keys `name`, `answers`, `roles`,
`photoMap` and `created_at` are read by the server, none of which is
inherited from a prototype. Reading a property of `null` throws; the callers
below test for `null` before they read. -/
def member : JSON → String → Option JSON
  | obj props, k => props.lookup k
  | _, _ => none

/-- The test `v === null`. -/
def isNull : JSON → Bool
  | null => true
  | _ => false

mutual
/-- The value `JSON.parse(JSON.stringify(v))`: `JSON.stringify` writes
`Infinity` and `-Infinity` as `null` and `-0` as `0`, at every depth, and
every other value as a text that reads back as the same value. -/
def written : JSON → JSON
  | null => null
  | bool b => bool b
  | num n => num n
  | negZero => num 0
  | inf _ => null
  | str s => str s
  | arr items => arr (writtenItems items)
  | obj props => obj (writtenProps props)
/-- The elements of an array, each as it is written. -/
def writtenItems : List JSON → List JSON
  | [] => []
  | x :: xs => written x :: writtenItems xs
/-- The properties of an object, each with its value as it is written. -/
def writtenProps : List (String × JSON) → List (String × JSON)
  | [] => []
  | (k, v) :: ps => (k, written v) :: writtenProps ps
end

end JSON

open JSON

/-- JavaScript truthiness of a value that may be `undefined` (`none`). -/
def isTruthy : Option JSON → Bool
  | some v => v.truthy
  | none => false

/-- The expression `a || b` where `a` may be `undefined` (`none`) and `b` is
defined: `a` when `a` is truthy, `b` otherwise. -/
def orElse (a : Option JSON) (b : JSON) : JSON :=
  match a with
  | some v => if v.truthy then v else b
  | none => b

/-! ## Paths (`path.posix`) -/

/-- The pieces of a path between its `/` separators. -/
def splitSep : List Char → List (List Char)
  | [] => [[]]
  | c :: cs =>
    if c = '/' then [] :: splitSep cs
    else
      match splitSep cs with
      | [] => [[c]]
      | s :: ss => (c :: s) :: ss

/-- One step of Node's `normalizeString`: `res` is the stack of the pieces
kept so far (last piece first). Empty pieces and `.` are skipped, `..`
removes the last piece kept (or is kept itself above the root of a relative
path), every other piece is kept. -/
def pushSegment (allowAboveRoot : Bool) (res : List (List Char)) (seg : List Char) :
    List (List Char) :=
  if seg = [] ∨ seg = ['.'] then res
  else if seg = ['.', '.'] then
    match res with
    | [] => if allowAboveRoot then [seg] else []
    | last :: rest =>
      if last = ['.', '.'] then (if allowAboveRoot then seg :: res else res) else rest
  else seg :: res

/-- The part of a normalized path before its last piece, given the pieces
before it: empty, or these pieces with a separator after each. -/
def leadOf (K : List (List Char)) : List Char :=
  if K = [] then [] else List.intercalate ['/'] K ++ ['/']

/-- Node's `normalizeString(path, allowAboveRoot, "/")`. -/
def normalizeString (path : List Char) (allowAboveRoot : Bool) : List Char :=
  List.intercalate ['/'] ((splitSep path).foldl (pushSegment allowAboveRoot) []).reverse

/-- Node's `path.posix.normalize`. -/
def normalize (path : List Char) : List Char :=
  if path = [] then ['.']
  else
    let isAbsolute := path.head? = some '/'
    let trailingSeparator := path.getLast? = some '/'
    let p := normalizeString path (!isAbsolute)
    if p = [] then
      (if isAbsolute then ['/'] else if trailingSeparator then ['.', '/'] else ['.'])
    else
      let q := if trailingSeparator then p ++ ['/'] else p
      if isAbsolute then '/' :: q else q

/-- Node's `path.posix.join(a, b)`: the non-empty arguments are glued with
`/` and the result is normalized. -/
def pathJoin (a b : String) : String :=
  String.mk
    (match a.data, b.data with
     | [], [] => ['.']
     | [], y => normalize y
     | x, [] => normalize x
     | x, y => normalize (x ++ '/' :: y))

/-- Node's `path.posix.basename(p)`: trailing separators are dropped and the
part after the last remaining separator is returned. -/
def basename (p : String) : String :=
  String.mk (((p.data.reverse.dropWhile (fun c => c = '/')).takeWhile (fun c => c ≠ '/')).reverse)

/-- Node's `path.posix.extname(p)`: the part of the basename from its last
`.` on; empty when the basename has no `.`, when its only `.` is its first
character, or when it is `..`. -/
def extname (p : String) : String :=
  let base := (basename p).data
  if '.' ∈ base then
    let ext := '.' :: (base.reverse.takeWhile (fun c => c ≠ '.')).reverse
    if ext.length = base.length ∨ base = ['.', '.'] then "" else String.mk ext
  else ""

/-- The file a path names: the path itself when it is absolute, the path
under the working directory `cwd` (`process.cwd()`, an absolute path)
otherwise, both without `.`, `..` and empty pieces, as `path.posix.resolve`
computes it. The file system is taken to have no links and to compare names
character by character, so that two paths name the same file exactly when
they resolve to the same string. -/
def resolve (cwd p : String) : String :=
  String.mk ('/' :: normalizeString
    (if p.data.head? = some '/' then p.data else cwd.data ++ '/' :: p.data) false)

/-- Helper to get path for a participant JSON:
`path.join(DATA_DIR, pid + ".json")`. -/
def jsonPathFor (DATA_DIR pid : String) : String :=
  pathJoin DATA_DIR (pid ++ ".json")

/-! ## Identifiers -/

/-- The alphabet handed to `customAlphabet`. -/
def alphabet : String := "123456789ABCDEFGHJKLMNPQRSTUVWXYZabcdefghijkmnopqrstuvwxyz"

/-- What `nanoid()` can return: ten characters of the alphabet. -/
def isNanoid (id : String) : Prop :=
  id.data.length = 10 ∧ ∀ c ∈ id.data, c ∈ alphabet.data

instance (id : String) : Decidable (isNanoid id) := by
  unfold isNanoid; infer_instance

/-! ## The file system -/

/-- The text of a file. `document v` is a text that `JSON.parse` reads as
`v`; `garbage raw` is a text that `JSON.parse` rejects. -/
inductive FileText where
  | document (v : JSON)
  | garbage (raw : String)

/-- The call `JSON.parse(text)`; `none` when it throws. -/
def FileText.parse : FileText → Option JSON
  | document v => some v
  | garbage _ => none

/-- The call `JSON.stringify(v, null, 2)`: a text that `JSON.parse` reads as
`v.written`. -/
def stringify (v : JSON) : FileText :=
  FileText.document v.written

/-- What the process finds at a path: a file it can read, with its text, or
a directory (which stands for everything that exists and cannot be read as a
file, such as a file without read permission). -/
inductive Entry where
  | file (text : FileText)
  | directory

/-- The file system as the process sees it: the working directory of the
process, what it finds at each absolute path (`none` when nothing is found
there, which is when `fs.existsSync` answers false), and at which paths the
system accepts a write (a write fails, for one, when the parent directory is
missing). -/
structure Disk where
  cwd : String
  entries : String → Option Entry
  writable : String → Bool

/-- A file system in which nothing exists. -/
def Disk.empty (cwd : String) (writable : String → Bool) : Disk :=
  { cwd := cwd, entries := fun _ => none, writable := writable }

/-- The test `fs.existsSync(file)`: true for a file and for a directory. -/
def existsSync (d : Disk) (file : String) : Bool :=
  (d.entries (resolve d.cwd file)).isSome

/-- The call `fsp.readFile(file, "utf-8")`; `none` when it throws, as it does
when nothing or a directory is at the path. -/
def readFile (d : Disk) (file : String) : Option FileText :=
  match d.entries (resolve d.cwd file) with
  | some (Entry.file text) => some text
  | _ => none

/-- The call `fsp.writeFile(file, data, "utf-8")`; `none` when it throws (the
path does not accept a write, or a directory is there), otherwise the file
system with the file at this path replaced. -/
def writeFile (d : Disk) (file : String) (data : FileText) : Option Disk :=
  match d.entries (resolve d.cwd file) with
  | some Entry.directory => none
  | _ =>
    if d.writable (resolve d.cwd file) then
      some { d with entries := fun p =>
        if p = resolve d.cwd file then some (Entry.file data) else d.entries p }
    else none

/-! ## Responses -/

/-- What a handler answers: `res.status(s).json(body)`, with `body` the value
handed to `res.json`, or `res.type("json").send(raw)` (status 200). -/
inductive Response where
  | json (status : Nat) (body : JSON)
  | send (status : Nat) (raw : FileText)

/-- The status code of a response. -/
def Response.status : Response → Nat
  | json s _ => s
  | send s _ => s

/-- The body `{ error: msg }`. -/
def errorBody (msg : String) : JSON :=
  obj [("error", str msg)]

/-! ## Handlers -/

/-- The expression `req.body || {}`. -/
def bodyOrEmpty (body : Option JSON) : JSON :=
  orElse body (obj [])

/-- The object `record` of `POST /api/participants`. -/
def newRecord (name : Option JSON) (id now : String) : JSON :=
  obj [("id", str id), ("name", orElse name null), ("created_at", str now),
       ("answers", arr []), ("roles", null), ("photoMap", obj [])]

/-- Create participant: `app.post("/api/participants", ...)`. The arguments
`id` and `now` are the results of `nanoid()` and `new Date().toISOString()`. -/
def postParticipants (DATA_DIR : String) (d : Disk) (body : Option JSON) (id now : String) :
    Response × Disk :=
  let name := (bodyOrEmpty body).member "name"
  let record := newRecord name id now
  match writeFile d (jsonPathFor DATA_DIR id) (stringify record) with
  | some d2 =>
    (Response.json 200 (obj [("id", str id), ("name", orElse name null), ("created_at", str now)]),
     d2)
  | none => (Response.json 500 (errorBody "Failed to create participant"), d)

/-- Get participant answers: `app.get("/api/answers/:participantId", ...)`. -/
def getAnswers (DATA_DIR : String) (d : Disk) (pid : String) : Response :=
  let file := jsonPathFor DATA_DIR pid
  if !existsSync d file then Response.json 404 (errorBody "Not found")
  else
    match readFile d file with
    | some raw => Response.send 200 raw
    | none => Response.json 500 (errorBody "Failed to read data")

/-- The value of `current` when no file exists: `{ id: pid }`. -/
def freshCurrent (pid : String) : JSON :=
  obj [("id", str pid)]

/-- The expression
`Array.isArray(payload.answers) ? payload.answers : current.answers || []`. -/
def answersOf (payloadAnswers currentAnswers : Option JSON) : JSON :=
  match payloadAnswers with
  | some (arr items) => arr items
  | _ => orElse currentAnswers (arr [])

/-- The object literal `merged` of the save handler. `nowC` and `nowU` are the
results of its two `new Date().toISOString()` calls. The literal reads
properties of `payload` and of `current`, which throws when one of them is
`null`: the result is `none` then. -/
def merged (pid : String) (payload current : JSON) (nowC nowU : String) : Option JSON :=
  if payload.isNull || current.isNull then none
  else
    some (obj
      [("id", str pid),
       ("name", orElse (payload.member "name") (orElse (current.member "name") null)),
       ("created_at", orElse (current.member "created_at") (str nowC)),
       ("updated_at", str nowU),
       ("answers", answersOf (payload.member "answers") (current.member "answers")),
       ("roles", orElse (payload.member "roles") (orElse (current.member "roles") null)),
       ("photoMap", orElse (payload.member "photoMap") (orElse (current.member "photoMap") (obj [])))])

/-- The value of `current` for an optional existing record: the record when
there is one, `{ id: pid }` otherwise. -/
def currentFor (pid : String) (existing : Option JSON) : JSON :=
  match existing with
  | some r => r
  | none => freshCurrent pid

/-- The value of `current` in the save handler: the parsed file when
something exists at the path, `{ id: pid }` otherwise; `none` when reading or
parsing throws. -/
def readCurrent (d : Disk) (file pid : String) : Option JSON :=
  if existsSync d file then (readFile d file).bind FileText.parse
  else some (freshCurrent pid)

/-- Save participant answers: `app.post("/api/answers/:participantId", ...)`. -/
def postAnswers (DATA_DIR : String) (d : Disk) (pid : String) (body : Option JSON)
    (nowC nowU : String) : Response × Disk :=
  let file := jsonPathFor DATA_DIR pid
  let payload := bodyOrEmpty body
  match (readCurrent d file pid).bind (fun current => merged pid payload current nowC nowU) with
  | none => (Response.json 500 (errorBody "Failed to save data"), d)
  | some m =>
    match writeFile d file (stringify m) with
    | some d2 =>
      (Response.json 200 (obj [("ok", bool true), ("updated_at", str nowU)]), d2)
    | none => (Response.json 500 (errorBody "Failed to save data"), d)

/-! ## Uploads -/

/-- One file of an upload request, with what the storage callbacks draw for
it: `millis` is the result of `Date.now()`, `id` the result of `nanoid()`,
`originalname` the file name the client sent. -/
structure Upload where
  millis : Nat
  id : String
  originalname : String

/-- The storage callback `destination`: `path.join(UPLOAD_DIR, pid)`. -/
def uploadDestination (UPLOAD_DIR pid : String) : String :=
  pathJoin UPLOAD_DIR pid

/-- The expression `path.extname(file.originalname) || ".bin"`. -/
def uploadExt (originalname : String) : String :=
  if extname originalname ≠ "" then extname originalname else ".bin"

/-- The storage callback `filename`: the time in milliseconds (a number far
below 10^21, so that its text is its decimal digits), `_`, the generated
identifier and the extension. -/
def uploadFilename (u : Upload) : String :=
  toString u.millis ++ "_" ++ u.id ++ uploadExt u.originalname

/-- The file object multer puts in `req.files` for a stored file. -/
structure UploadedFile where
  destination : String
  filename : String
  path : String

/-- The file object of an upload: multer's disk storage writes the file at
`path.join(destination, filename)` and records this as `path`. -/
def storedFile (UPLOAD_DIR pid : String) (u : Upload) : UploadedFile :=
  { destination := uploadDestination UPLOAD_DIR pid,
    filename := uploadFilename u,
    path := pathJoin (uploadDestination UPLOAD_DIR pid) (uploadFilename u) }

/-- The URL the upload handler returns for one stored file. -/
def uploadUrl (BASE_URL pid : String) (f : UploadedFile) : String :=
  let rel := "/uploads/" ++ pid ++ "/" ++ basename f.path
  if BASE_URL ≠ "" then BASE_URL ++ rel else rel

/-- The list `urls` of the upload handler, for `files = req.files || []`. -/
def uploadUrls (BASE_URL pid : String) (files : Option (List UploadedFile)) : List String :=
  (files.getD []).map (uploadUrl BASE_URL pid)

/-- Upload photos: the handler of `app.post("/api/upload/:participantId", ...)`,
run after multer has stored the files. -/
def postUpload (BASE_URL pid : String) (files : Option (List UploadedFile)) : Response :=
  Response.json 200 (obj [("uploaded", arr ((uploadUrls BASE_URL pid files).map str))])

/-- The directories from the root down to the absolute path `p`, `p`
included: what `fs.mkdirSync(p, { recursive: true })` may create. -/
def ancestors (p : String) : List String :=
  (((splitSep p.data).filter (fun s => s ≠ [])).inits).map
    (fun segs => String.mk ('/' :: List.intercalate ['/'] segs))

/-- The paths an upload request for `pid` may write at: the destination
directory with the directories above it, and the path of each file. -/
def uploadTouched (cwd UPLOAD_DIR pid : String) (us : List Upload) : List String :=
  match us with
  | [] => []
  | _ =>
    ancestors (resolve cwd (uploadDestination UPLOAD_DIR pid)) ++
      us.map (fun u => resolve cwd (storedFile UPLOAD_DIR pid u).path)

/-! ## Runs of requests -/

/-- A create or save request, with the values the handler draws from its
environment. -/
inductive Request where
  | create (body : Option JSON) (id now : String)
  | save (pid : String) (body : Option JSON) (nowC nowU : String)

/-- The participant ID a request writes under: the generated ID of a create,
the route parameter of a save. -/
def Request.target : Request → String
  | create _ id _ => id
  | save pid _ _ _ => pid

/-- The file system after a request is handled. -/
def step (DATA_DIR : String) (d : Disk) : Request → Disk
  | Request.create body id now => (postParticipants DATA_DIR d body id now).2
  | Request.save pid body nowC nowU => (postAnswers DATA_DIR d pid body nowC nowU).2

/-- The file system after a list of requests is handled in order. -/
def run (DATA_DIR : String) (d : Disk) (reqs : List Request) : Disk :=
  reqs.foldl (step DATA_DIR) d

/-- A participant ID without the path separator. -/
def slashFree (pid : String) : Prop :=
  '/' ∉ pid.data

instance (pid : String) : Decidable (slashFree pid) := by
  unfold slashFree; infer_instance

/-- A request whose participant ID has no path separator: every create (its
ID is drawn from the alphabet), and a save whose route parameter has none. -/
def Request.plain : Request → Prop
  | create _ id _ => isNanoid id
  | save pid _ _ _ => slashFree pid

/-- The file system after a list of saves to one participant ID, each given
as its body and its two clock readings. -/
def saveAll (DATA_DIR : String) (d : Disk) (pid : String)
    (saves : List (Option JSON × String × String)) : Disk :=
  saves.foldl (fun acc s => (postAnswers DATA_DIR acc pid s.1 s.2.1 s.2.2).2) d

/-- An operation that writes to the file system: a create or save request,
or an upload request for `pid` with the files handed to the storage. -/
inductive Operation where
  | request (r : Request)
  | upload (pid : String) (us : List Upload)

/-- The paths an operation may write at. -/
def Operation.touched (DATA_DIR UPLOAD_DIR cwd : String) : Operation → List String
  | request r => [resolve cwd (jsonPathFor DATA_DIR r.target)]
  | upload pid us => uploadTouched cwd UPLOAD_DIR pid us

/-- The file systems the server can reach through a list of operations. A
create or save is handled as `step` says. An upload is handled by multer,
which creates directories and writes and removes files only at the paths of
`uploadTouched`: every other path is left as it was. -/
inductive Serves (DATA_DIR UPLOAD_DIR : String) : Disk → List Operation → Disk → Prop where
  | done (d : Disk) : Serves DATA_DIR UPLOAD_DIR d [] d
  | request (d : Disk) (r : Request) (ops : List Operation) (d2 : Disk) :
      Serves DATA_DIR UPLOAD_DIR (step DATA_DIR d r) ops d2 →
      Serves DATA_DIR UPLOAD_DIR d (Operation.request r :: ops) d2
  | upload (d d1 : Disk) (pid : String) (us : List Upload) (ops : List Operation) (d2 : Disk) :
      d1.cwd = d.cwd →
      (∀ p, p ∉ uploadTouched d.cwd UPLOAD_DIR pid us → d1.entries p = d.entries p) →
      Serves DATA_DIR UPLOAD_DIR d1 ops d2 →
      Serves DATA_DIR UPLOAD_DIR d (Operation.upload pid us :: ops) d2

/-- A record that the create handler or the save handler wrote: the text of
`record`, or of `merged` for some payload and some `current`, read back. -/
def Written (rec : JSON) : Prop :=
  (∃ name id now, rec = (newRecord name id now).written) ∨
  (∃ pid payload current nowC nowU m,
    merged pid payload current nowC nowU = some m ∧ rec = m.written)

/-! # Theorems -/

/-! ## Basic facts about the primitives -/

theorem orElse_of_truthy {a : Option JSON} {v b : JSON} (h : a = some v) (hv : v.truthy = true) :
    orElse a b = v := by
  subst h; simp [orElse, hv]

theorem orElse_of_not_isTruthy {a : Option JSON} {b : JSON} (h : isTruthy a = false) :
    orElse a b = b := by
  cases a with
  | none => rfl
  | some v => simp [isTruthy] at h; simp [orElse, h]

theorem orElse_of_isTruthy {a : Option JSON} {b : JSON} (h : isTruthy a = true) :
    some (orElse a b) = a := by
  cases a with
  | none => simp [isTruthy] at h
  | some v => simp [isTruthy] at h; simp [orElse, h]

theorem truthy_orElse {a : Option JSON} {b : JSON} (hb : b.truthy = true) :
    (orElse a b).truthy = true := by
  cases a with
  | none => exact hb
  | some v =>
    by_cases hv : v.truthy = true
    · simp [orElse, hv]
    · simp [orElse, hv, hb]

theorem orElse_truthy_or (a : Option JSON) (b : JSON) :
    (orElse a b).truthy = true ∨ orElse a b = b := by
  cases a with
  | none => right; rfl
  | some v =>
    by_cases hv : v.truthy = true
    · left; simp [orElse, hv]
    · right; simp [orElse, hv]

/-- A truthy value is written as a truthy value or, when it is an infinity,
as `null`. -/
theorem written_truthy_or_null {v : JSON} (h : v.truthy = true) :
    v.written.truthy = true ∨ v.written = null := by
  cases v <;> simp_all [truthy, written]

mutual
/-- Writing a written value again changes nothing. -/
theorem written_idem : ∀ v : JSON, v.written.written = v.written
  | JSON.null => rfl
  | JSON.bool _ => rfl
  | JSON.num _ => rfl
  | JSON.negZero => rfl
  | JSON.inf _ => rfl
  | JSON.str _ => rfl
  | JSON.arr items => by simp only [written]; rw [writtenItems_idem items]
  | JSON.obj props => by simp only [written]; rw [writtenProps_idem props]
/-- Writing written array elements again changes nothing. -/
theorem writtenItems_idem : ∀ xs : List JSON, writtenItems (writtenItems xs) = writtenItems xs
  | [] => rfl
  | x :: xs => by simp only [writtenItems]; rw [written_idem x, writtenItems_idem xs]
/-- Writing written properties again changes nothing. -/
theorem writtenProps_idem :
    ∀ ps : List (String × JSON), writtenProps (writtenProps ps) = writtenProps ps
  | [] => rfl
  | (k, v) :: ps => by simp only [writtenProps]; rw [written_idem v, writtenProps_idem ps]
end

theorem lookup_writtenProps (k : String) (ps : List (String × JSON)) :
    (writtenProps ps).lookup k = (ps.lookup k).map written := by
  induction ps with
  | nil => rfl
  | cons p ps ih =>
    obtain ⟨k2, v⟩ := p
    simp only [writtenProps, List.lookup]
    cases h : (k == k2) with
    | true => rfl
    | false => exact ih

/-- A property of a written value is the written property of the value. -/
theorem member_written (v : JSON) (k : String) :
    v.written.member k = (v.member k).map written := by
  cases v with
  | obj props => simp only [written, member]; exact lookup_writtenProps k props
  | _ => rfl

theorem merged_eq_some {pid : String} {payload current : JSON} {nowC nowU : String}
    (hp : payload ≠ null) (hc : current ≠ null) :
    merged pid payload current nowC nowU = some (obj
      [("id", str pid),
       ("name", orElse (payload.member "name") (orElse (current.member "name") null)),
       ("created_at", orElse (current.member "created_at") (str nowC)),
       ("updated_at", str nowU),
       ("answers", answersOf (payload.member "answers") (current.member "answers")),
       ("roles", orElse (payload.member "roles") (orElse (current.member "roles") null)),
       ("photoMap", orElse (payload.member "photoMap") (orElse (current.member "photoMap") (obj [])))]) := by
  have h1 : payload.isNull = false := by cases payload <;> simp_all [isNull]
  have h2 : current.isNull = false := by cases current <;> simp_all [isNull]
  simp [merged, h1, h2]

theorem merged_some_ne_null {pid : String} {payload current : JSON} {nowC nowU : String} {m : JSON}
    (h : merged pid payload current nowC nowU = some m) :
    payload ≠ null ∧ current ≠ null := by
  constructor
  · rintro rfl; simp [merged, isNull] at h
  · rintro rfl; simp [merged, isNull] at h

/-- The payload of a handler, `req.body || {}`, is never `null`. -/
theorem bodyOrEmpty_ne_null (body : Option JSON) : bodyOrEmpty body ≠ null := by
  cases body with
  | none => simp [bodyOrEmpty, orElse]
  | some v =>
    cases v <;> simp [bodyOrEmpty, orElse, truthy]
    all_goals (split <;> simp)

/-- The record `merged` builds, field by field. -/
theorem merged_fields {pid : String} {payload current : JSON} {nowC nowU : String} {m : JSON}
    (h : merged pid payload current nowC nowU = some m) :
    m.member "id" = some (str pid) ∧
    m.member "created_at" = some (orElse (current.member "created_at") (str nowC)) ∧
    m.member "answers" = some (answersOf (payload.member "answers") (current.member "answers")) ∧
    m.member "roles" = some (orElse (payload.member "roles") (orElse (current.member "roles") null)) ∧
    m.member "photoMap" =
      some (orElse (payload.member "photoMap") (orElse (current.member "photoMap") (obj []))) := by
  obtain ⟨hp, hc⟩ := merged_some_ne_null h
  rw [merged_eq_some hp hc] at h
  injection h with h
  subst h
  exact ⟨rfl, rfl, rfl, rfl, rfl⟩

theorem writeFile_eq_some {d d2 : Disk} {file : String} {data : FileText}
    (h : writeFile d file data = some d2) :
    d.writable (resolve d.cwd file) = true ∧
    d2 = { d with entries := fun p =>
      if p = resolve d.cwd file then some (Entry.file data) else d.entries p } := by
  unfold writeFile at h
  split at h
  · cases h
  · split at h
    · injection h with h; exact ⟨by assumption, h.symm⟩
    · cases h

theorem getAnswers_of_file {DATA_DIR : String} {d : Disk} {pid : String} {t : FileText}
    (h : d.entries (resolve d.cwd (jsonPathFor DATA_DIR pid)) = some (Entry.file t)) :
    getAnswers DATA_DIR d pid = Response.send 200 t := by
  simp [getAnswers, existsSync, readFile, h]

theorem getAnswers_of_directory {DATA_DIR : String} {d : Disk} {pid : String}
    (h : d.entries (resolve d.cwd (jsonPathFor DATA_DIR pid)) = some Entry.directory) :
    getAnswers DATA_DIR d pid = Response.json 500 (errorBody "Failed to read data") := by
  simp [getAnswers, existsSync, readFile, h]

theorem getAnswers_of_nothing {DATA_DIR : String} {d : Disk} {pid : String}
    (h : d.entries (resolve d.cwd (jsonPathFor DATA_DIR pid)) = none) :
    getAnswers DATA_DIR d pid = Response.json 404 (errorBody "Not found") := by
  simp [getAnswers, existsSync, h]

/-- What a save does: either it answers 500 and leaves the file system as it
was, or it answers 200 and has replaced the file of `pid` by the text of the
merged record. -/
theorem postAnswers_cases (DATA_DIR : String) (d : Disk) (pid : String) (body : Option JSON)
    (nowC nowU : String) :
    (postAnswers DATA_DIR d pid body nowC nowU
        = (Response.json 500 (errorBody "Failed to save data"), d)) ∨
    ∃ current m,
      readCurrent d (jsonPathFor DATA_DIR pid) pid = some current ∧
      merged pid (bodyOrEmpty body) current nowC nowU = some m ∧
      d.writable (resolve d.cwd (jsonPathFor DATA_DIR pid)) = true ∧
      postAnswers DATA_DIR d pid body nowC nowU
        = (Response.json 200 (obj [("ok", bool true), ("updated_at", str nowU)]),
           { d with entries := fun p =>
               if p = resolve d.cwd (jsonPathFor DATA_DIR pid) then
                 some (Entry.file (FileText.document m.written))
               else d.entries p }) := by
  cases hc : readCurrent d (jsonPathFor DATA_DIR pid) pid with
  | none => left; simp [postAnswers, hc]
  | some current =>
    cases hm : merged pid (bodyOrEmpty body) current nowC nowU with
    | none => left; simp [postAnswers, hc, hm]
    | some m =>
      cases hw : writeFile d (jsonPathFor DATA_DIR pid) (stringify m) with
      | none => left; simp [postAnswers, hc, hm, hw]
      | some d2 =>
        right
        obtain ⟨h1, h2⟩ := writeFile_eq_some hw
        simp only [stringify] at hw h2
        exact ⟨current, m, rfl, hm, h1, by simp [postAnswers, hc, hm, hw, h2, stringify]⟩

/-- What a create does: either it answers 500 and leaves the file system as
it was, or it answers 200 and has written the text of the new record at the
path of `id`. -/
theorem postParticipants_cases (DATA_DIR : String) (d : Disk) (body : Option JSON)
    (id now : String) :
    (postParticipants DATA_DIR d body id now
        = (Response.json 500 (errorBody "Failed to create participant"), d)) ∨
    (d.writable (resolve d.cwd (jsonPathFor DATA_DIR id)) = true ∧
      (postParticipants DATA_DIR d body id now).1
        = Response.json 200 (obj [("id", str id),
            ("name", orElse ((bodyOrEmpty body).member "name") null), ("created_at", str now)]) ∧
      (postParticipants DATA_DIR d body id now).2
        = { d with entries := fun p =>
              if p = resolve d.cwd (jsonPathFor DATA_DIR id) then
                some (Entry.file (FileText.document
                  (newRecord ((bodyOrEmpty body).member "name") id now).written))
              else d.entries p }) := by
  cases hw : writeFile d (jsonPathFor DATA_DIR id)
      (stringify (newRecord ((bodyOrEmpty body).member "name") id now)) with
  | none => left; simp [postParticipants, hw]
  | some d2 =>
    right
    obtain ⟨h1, h2⟩ := writeFile_eq_some hw
    simp only [stringify] at hw h2
    exact ⟨h1, by simp [postParticipants, hw, stringify],
      by simp [postParticipants, hw, h2, stringify]⟩

theorem readCurrent_of_document {d : Disk} {file pid : String} {rec : JSON}
    (h : d.entries (resolve d.cwd file) = some (Entry.file (FileText.document rec))) :
    readCurrent d file pid = some rec := by
  simp [readCurrent, existsSync, readFile, h, FileText.parse]

theorem readCurrent_of_nothing {d : Disk} {file pid : String}
    (h : d.entries (resolve d.cwd file) = none) :
    readCurrent d file pid = some (freshCurrent pid) := by
  simp [readCurrent, existsSync, h]

theorem bodyOrEmpty_of_member {X : JSON} {k : String} {v : JSON} (h : X.member k = some v) :
    bodyOrEmpty (some X) = X := by
  cases X <;> simp [member] at h
  simp [bodyOrEmpty, orElse, truthy]

theorem truthy_str {s : String} (h : s ≠ "") : (str s).truthy = true := by
  simp [truthy, h]

/-! ## C3 and C4: the merger rules for `roles` and `answers` -/

/-- C3, as stated, fails: the payload contains the field `roles` (with value
`null`), the existing record has roles `"guide"`, and the merged record keeps
`"guide"` instead of taking the payload's `null`. -/
theorem merged_roles_ignores_null_payload :
    (obj [("roles", null)]).member "roles" = some null ∧
    ((merged "p1" (obj [("roles", null)])
        (currentFor "p1" (some (obj [("id", str "p1"), ("roles", str "guide")]))) "t1" "t2").bind
      (fun m => m.member "roles")) = some (str "guide") :=
  ⟨rfl, rfl⟩

/-- C3 (amended): for every optional existing record and every payload, the
merged record's roles is the payload's roles whenever that value is truthy;
otherwise it is the existing record's roles when that value is truthy; and it
is `null` when neither is truthy (absent, `null`, `false`, `0` or `""`). -/
theorem merged_roles_rule (pid : String) (payload : JSON) (existing : Option JSON)
    (nowC nowU : String) (hp : payload ≠ null) (he : existing ≠ some null) :
    ∃ m, merged pid payload (currentFor pid existing) nowC nowU = some m ∧
      (isTruthy (payload.member "roles") = true →
        m.member "roles" = payload.member "roles") ∧
      (isTruthy (payload.member "roles") = false →
        isTruthy (existing.bind (fun r => r.member "roles")) = true →
        m.member "roles" = existing.bind (fun r => r.member "roles")) ∧
      (isTruthy (payload.member "roles") = false →
        isTruthy (existing.bind (fun r => r.member "roles")) = false →
        m.member "roles" = some null) := by
  have hc : currentFor pid existing ≠ null := by
    cases existing with
    | none => simp [currentFor, freshCurrent]
    | some r => intro h; exact he (by simpa [currentFor] using h)
  have hcur : (currentFor pid existing).member "roles" = existing.bind (fun r => r.member "roles") := by
    cases existing with
    | none => rfl
    | some r => rfl
  refine ⟨_, merged_eq_some hp hc, ?_, ?_, ?_⟩
  · intro h
    show some (orElse _ _) = _
    exact orElse_of_isTruthy h
  · intro h1 h2
    show some (orElse _ _) = _
    rw [orElse_of_not_isTruthy h1, hcur]
    rw [← hcur] at h2 ⊢
    exact orElse_of_isTruthy h2
  · intro h1 h2
    show some (orElse _ _) = _
    rw [← hcur] at h2
    rw [orElse_of_not_isTruthy h1, orElse_of_not_isTruthy h2]

/-- The amended C3 at a concrete input: a payload with truthy roles over an
existing record with other roles. -/
theorem merged_roles_rule_witness :
    (obj [("roles", str "host")] ≠ null ∧
      some (obj [("id", str "p1"), ("roles", str "guide")]) ≠ some null) ∧
    ∃ m, merged "p1" (obj [("roles", str "host")])
        (currentFor "p1" (some (obj [("id", str "p1"), ("roles", str "guide")]))) "t1" "t2" = some m ∧
      (isTruthy ((obj [("roles", str "host")]).member "roles") = true →
        m.member "roles" = (obj [("roles", str "host")]).member "roles") ∧
      (isTruthy ((obj [("roles", str "host")]).member "roles") = false →
        isTruthy ((some (obj [("id", str "p1"), ("roles", str "guide")])).bind
          (fun r => r.member "roles")) = true →
        m.member "roles" = (some (obj [("id", str "p1"), ("roles", str "guide")])).bind
          (fun r => r.member "roles")) ∧
      (isTruthy ((obj [("roles", str "host")]).member "roles") = false →
        isTruthy ((some (obj [("id", str "p1"), ("roles", str "guide")])).bind
          (fun r => r.member "roles")) = false →
        m.member "roles" = some null) :=
  ⟨⟨by simp, by simp⟩,
   merged_roles_rule "p1" (obj [("roles", str "host")])
     (some (obj [("id", str "p1"), ("roles", str "guide")])) "t1" "t2" (by simp) (by simp)⟩

/-- C4, as stated, fails: the payload has no answers, the existing record's
answers is present with the falsy value `0`, and the merged record's answers
is the empty array, not the existing value. -/
theorem merged_answers_drops_falsy_existing :
    (obj []).member "answers" = none ∧
    (obj [("id", str "p1"), ("answers", num 0)]).member "answers" = some (num 0) ∧
    ((merged "p1" (obj [])
        (currentFor "p1" (some (obj [("id", str "p1"), ("answers", num 0)]))) "t1" "t2").bind
      (fun m => m.member "answers")) = some (arr []) :=
  ⟨rfl, rfl, rfl⟩

/-- C4 (amended): for every optional existing record and every payload, the
merged record's answers is the payload's answers when that value is an array
(including the empty array); otherwise it is the existing record's answers
when that value is truthy (as every array is), and the empty array
otherwise. -/
theorem merged_answers_rule (pid : String) (payload : JSON) (existing : Option JSON)
    (nowC nowU : String) (hp : payload ≠ null) (he : existing ≠ some null) :
    ∃ m, merged pid payload (currentFor pid existing) nowC nowU = some m ∧
      (∀ items, payload.member "answers" = some (arr items) →
        m.member "answers" = some (arr items)) ∧
      ((∀ items, payload.member "answers" ≠ some (arr items)) →
        isTruthy (existing.bind (fun r => r.member "answers")) = true →
        m.member "answers" = existing.bind (fun r => r.member "answers")) ∧
      ((∀ items, payload.member "answers" ≠ some (arr items)) →
        isTruthy (existing.bind (fun r => r.member "answers")) = false →
        m.member "answers" = some (arr [])) := by
  have hc : currentFor pid existing ≠ null := by
    cases existing with
    | none => simp [currentFor, freshCurrent]
    | some r => intro h; exact he (by simpa [currentFor] using h)
  have hcur : (currentFor pid existing).member "answers"
      = existing.bind (fun r => r.member "answers") := by
    cases existing with
    | none => rfl
    | some r => rfl
  have hno : (∀ items, payload.member "answers" ≠ some (arr items)) →
      answersOf (payload.member "answers") ((currentFor pid existing).member "answers")
        = orElse ((currentFor pid existing).member "answers") (arr []) := by
    intro h
    unfold answersOf
    split
    · next items heq => exact absurd heq (h items)
    · rfl
  refine ⟨_, merged_eq_some hp hc, ?_, ?_, ?_⟩
  · intro items h
    show some (answersOf _ _) = _
    rw [h]; rfl
  · intro h1 h2
    show some (answersOf _ _) = _
    rw [hno h1]
    rw [← hcur] at h2 ⊢
    exact orElse_of_isTruthy h2
  · intro h1 h2
    show some (answersOf _ _) = _
    rw [← hcur] at h2
    rw [hno h1, orElse_of_not_isTruthy h2]

/-- The amended C4 at a concrete input: an empty array in the payload
replaces the existing answers. -/
theorem merged_answers_rule_witness :
    (obj [("answers", arr [])] ≠ null ∧
      some (obj [("id", str "p1"), ("answers", arr [str "a"])]) ≠ some null) ∧
    ∃ m, merged "p1" (obj [("answers", arr [])])
        (currentFor "p1" (some (obj [("id", str "p1"), ("answers", arr [str "a"])]))) "t1" "t2"
          = some m ∧
      (∀ items, (obj [("answers", arr [])]).member "answers" = some (arr items) →
        m.member "answers" = some (arr items)) ∧
      ((∀ items, (obj [("answers", arr [])]).member "answers" ≠ some (arr items)) →
        isTruthy ((some (obj [("id", str "p1"), ("answers", arr [str "a"])])).bind
          (fun r => r.member "answers")) = true →
        m.member "answers" = (some (obj [("id", str "p1"), ("answers", arr [str "a"])])).bind
          (fun r => r.member "answers")) ∧
      ((∀ items, (obj [("answers", arr [])]).member "answers" ≠ some (arr items)) →
        isTruthy ((some (obj [("id", str "p1"), ("answers", arr [str "a"])])).bind
          (fun r => r.member "answers")) = false →
        m.member "answers" = some (arr [])) :=
  ⟨⟨by simp, by simp⟩,
   merged_answers_rule "p1" (obj [("answers", arr [])])
     (some (obj [("id", str "p1"), ("answers", arr [str "a"])])) "t1" "t2" (by simp) (by simp)⟩

/-! ## C1: save followed by fetch -/

/-- C1, as stated, fails in two ways. Participant `p1` has roles `"guide"`
from an earlier save; a save whose payload supplies `answers: []`,
`roles: null` and an empty photoMap succeeds, and the fetch that follows
returns a record whose roles is still `"guide"`. And a first save for `p2`
whose payload supplies the roles `1e400` (read as `Infinity`) succeeds, and
the fetch that follows returns a record whose roles is `null`. -/
theorem save_then_fetch_keeps_old_roles :
    ((obj [("answers", arr []), ("roles", null), ("photoMap", obj [])]).member "roles" = some null ∧
      (postAnswers "/data"
          (postAnswers "/data" (Disk.empty "/" fun _ => true) "p1"
            (some (obj [("roles", str "guide")])) "t1" "t1").2
          "p1" (some (obj [("answers", arr []), ("roles", null), ("photoMap", obj [])]))
          "t2" "t2").1.status = 200 ∧
      getAnswers "/data"
          (postAnswers "/data"
            (postAnswers "/data" (Disk.empty "/" fun _ => true) "p1"
              (some (obj [("roles", str "guide")])) "t1" "t1").2
            "p1" (some (obj [("answers", arr []), ("roles", null), ("photoMap", obj [])]))
            "t2" "t2").2 "p1"
        = Response.send 200 (FileText.document (obj
            [("id", str "p1"), ("name", null), ("created_at", str "t1"), ("updated_at", str "t2"),
             ("answers", arr []), ("roles", str "guide"), ("photoMap", obj [])]))) ∧
    ((postAnswers "/data" (Disk.empty "/" fun _ => true) "p2"
          (some (obj [("answers", arr []), ("roles", inf false), ("photoMap", obj [])]))
          "t1" "t1").1.status = 200 ∧
      getAnswers "/data"
          (postAnswers "/data" (Disk.empty "/" fun _ => true) "p2"
            (some (obj [("answers", arr []), ("roles", inf false), ("photoMap", obj [])]))
            "t1" "t1").2 "p2"
        = Response.send 200 (FileText.document (obj
            [("id", str "p2"), ("name", null), ("created_at", str "t1"), ("updated_at", str "t1"),
             ("answers", arr []), ("roles", null), ("photoMap", obj [])]))) :=
  ⟨⟨rfl, rfl, rfl⟩, ⟨rfl, rfl⟩⟩

theorem answersOf_of_array {items : List JSON} (c : Option JSON) :
    answersOf (some (arr items)) c = arr items := rfl

theorem answersOf_of_not_array {a : JSON} (c : Option JSON) (h : ∀ items, a ≠ arr items) :
    answersOf (some a) c = orElse c (arr []) := by
  unfold answersOf
  split
  · next items heq => injection heq with heq; exact absurd heq (h items)
  · rfl

/-- C1 (amended): for every participant ID (whether or not a record already
exists for it) and every JSON payload X that supplies all three of answers,
roles and photoMap, a successful save(id, X) followed by fetch(id) returns a
record whose id is the path ID and in which, calling a value storable when it
is written and read back unchanged (it holds no number beyond the double
range, which is written as `null`, and no `-0`, which is written as `0`) and
`current` the record the save read (or the bare id when nothing was stored):
answers equals X's answers exactly when that is a storable array, or is no
array and is what the truthy answers of `current` is stored as;
roles equals X's roles exactly when that is truthy and storable, or is `null`
while `current` has no truthy roles other than one stored as `null`;
photoMap equals X's photoMap exactly when that is truthy and storable, or is
`null` while `current` has a truthy photoMap stored as `null`. -/
theorem save_then_fetch_round_trip (DATA_DIR : String) (d : Disk) (pid : String) (X : JSON)
    (nowC nowU : String) (a r m current : JSON)
    (ha : X.member "answers" = some a) (hr : X.member "roles" = some r)
    (hm : X.member "photoMap" = some m)
    (hcur : readCurrent d (jsonPathFor DATA_DIR pid) pid = some current)
    (hok : (postAnswers DATA_DIR d pid (some X) nowC nowU).1.status = 200) :
    ∃ rec,
      getAnswers DATA_DIR (postAnswers DATA_DIR d pid (some X) nowC nowU).2 pid
        = Response.send 200 (FileText.document rec) ∧
      rec.member "id" = some (str pid) ∧
      (rec.member "answers" = X.member "answers" ↔
        (∃ items, a = arr items ∧ a.written = a) ∨
        ((∀ items, a ≠ arr items) ∧
          ∃ c, current.member "answers" = some c ∧ c.truthy = true ∧ c.written = a)) ∧
      (rec.member "roles" = X.member "roles" ↔
        (r.truthy = true ∧ r.written = r) ∨
        (r = null ∧ ∀ c, current.member "roles" = some c → c.truthy = true → c.written = null)) ∧
      (rec.member "photoMap" = X.member "photoMap" ↔
        (m.truthy = true ∧ m.written = m) ∨
        (m = null ∧
          ∃ c, current.member "photoMap" = some c ∧ c.truthy = true ∧ c.written = null)) := by
  rcases postAnswers_cases DATA_DIR d pid (some X) nowC nowU with h | ⟨cur2, mg, hcur2, hmerged, _, h⟩
  · rw [h] at hok; simp [Response.status] at hok
  rw [hcur] at hcur2
  injection hcur2 with hcur2
  subst hcur2
  rw [bodyOrEmpty_of_member ha] at hmerged
  obtain ⟨hid, _, hans, hroles, hphoto⟩ := merged_fields hmerged
  refine ⟨mg.written, ?_, ?_, ?_, ?_, ?_⟩
  · rw [h]; exact getAnswers_of_file (by simp)
  · rw [member_written, hid]; rfl
  · -- answers
    rw [member_written, hans, ha]
    simp only [Option.map_some', Option.some.injEq]
    by_cases harr : ∃ items, a = arr items
    · obtain ⟨items, rfl⟩ := harr
      rw [answersOf_of_array]
      constructor
      · intro e; exact Or.inl ⟨items, rfl, e⟩
      · rintro (⟨_, _, e⟩ | ⟨hno, _⟩)
        · exact e
        · exact absurd rfl (hno items)
    · have hno : ∀ items, a ≠ arr items := fun items e => harr ⟨items, e⟩
      rw [answersOf_of_not_array _ hno]
      constructor
      · intro e
        right
        refine ⟨hno, ?_⟩
        cases hc : current.member "answers" with
        | none =>
          rw [hc] at e
          exact absurd e.symm (hno [])
        | some c =>
          rw [hc] at e
          by_cases hct : c.truthy = true
          · rw [orElse_of_truthy rfl hct] at e
            exact ⟨c, rfl, hct, e⟩
          · have : orElse (some c) (arr []) = arr [] := by simp [orElse, hct]
            rw [this] at e
            exact absurd e.symm (hno [])
      · rintro (⟨items, e, _⟩ | ⟨_, c, hc, hct, e⟩)
        · exact absurd e (hno items)
        · rw [hc, orElse_of_truthy rfl hct]; exact e
  · -- roles
    rw [member_written, hroles, hr]
    simp only [Option.map_some', Option.some.injEq]
    by_cases hrt : r.truthy = true
    · rw [orElse_of_truthy rfl hrt]
      constructor
      · intro e; exact Or.inl ⟨hrt, e⟩
      · rintro (⟨_, e⟩ | ⟨e, _⟩)
        · exact e
        · subst e; simp [truthy] at hrt
    · have hrf : r.truthy = false := by simpa using hrt
      have h1 : orElse (some r) (orElse (current.member "roles") null)
          = orElse (current.member "roles") null := by simp [orElse, hrf]
      rw [h1]
      cases hc : current.member "roles" with
      | none =>
        have : orElse none null = null := rfl
        rw [this]
        constructor
        · intro e; right; exact ⟨e.symm, by intro c hc2; cases hc2⟩
        · rintro (⟨e, _⟩ | ⟨e, _⟩)
          · rw [e] at hrf; cases hrf
          · rw [e]; rfl
      | some c =>
        by_cases hct : c.truthy = true
        · rw [orElse_of_truthy rfl hct]
          constructor
          · intro e
            right
            rcases written_truthy_or_null hct with h2 | h2
            · rw [e, hrf] at h2; cases h2
            · rw [h2] at e
              refine ⟨e.symm, ?_⟩
              intro c2 hc2 _
              injection hc2 with hc2
              subst hc2
              exact h2
          · rintro (⟨e, _⟩ | ⟨e, hall⟩)
            · rw [e] at hrf; cases hrf
            · rw [e]; exact hall c rfl hct
        · have : orElse (some c) null = null := by simp [orElse, hct]
          rw [this]
          constructor
          · intro e
            right
            refine ⟨e.symm, ?_⟩
            intro c2 hc2 hc2t
            injection hc2 with hc2
            subst hc2
            exact absurd hc2t hct
          · rintro (⟨e, _⟩ | ⟨e, _⟩)
            · rw [e] at hrf; cases hrf
            · rw [e]; rfl
  · -- photoMap
    rw [member_written, hphoto, hm]
    simp only [Option.map_some', Option.some.injEq]
    by_cases hmt : m.truthy = true
    · rw [orElse_of_truthy rfl hmt]
      constructor
      · intro e; exact Or.inl ⟨hmt, e⟩
      · rintro (⟨_, e⟩ | ⟨e, _⟩)
        · exact e
        · subst e; simp [truthy] at hmt
    · have hmf : m.truthy = false := by simpa using hmt
      have h1 : orElse (some m) (orElse (current.member "photoMap") (obj []))
          = orElse (current.member "photoMap") (obj []) := by simp [orElse, hmf]
      rw [h1]
      have hfalse : ∀ v : JSON, v.truthy = true → v ≠ m := by
        rintro v hv rfl
        rw [hv] at hmf; cases hmf
      by_cases hct : ∃ c, current.member "photoMap" = some c ∧ c.truthy = true
      · obtain ⟨c, hc, hct⟩ := hct
        rw [hc, orElse_of_truthy rfl hct]
        constructor
        · intro e
          right
          rcases written_truthy_or_null hct with h2 | h2
          · exact absurd e (hfalse _ h2)
          · rw [h2] at e
            exact ⟨e.symm, c, rfl, hct, h2⟩
        · rintro (⟨e, _⟩ | ⟨e, c2, hc2, _, e2⟩)
          · rw [e] at hmf; cases hmf
          · injection hc2 with hc2
            subst hc2
            rw [e, e2]
      · have hnt : isTruthy (current.member "photoMap") = false := by
          cases hc : current.member "photoMap" with
          | none => rfl
          | some c =>
            have : c.truthy ≠ true := fun hh => hct ⟨c, hc, hh⟩
            simpa [isTruthy] using this
        rw [orElse_of_not_isTruthy hnt]
        constructor
        · intro e
          exact absurd e (hfalse _ rfl)
        · rintro (⟨e, _⟩ | ⟨_, c, hc, hc2, _⟩)
          · rw [e] at hmf; cases hmf
          · exact absurd ⟨c, hc, hc2⟩ hct

/-- The amended C1 at a concrete input: a first save for `p1` whose payload
supplies `roles: null`. -/
theorem save_then_fetch_round_trip_witness :
    ((obj [("answers", arr [str "yes"]), ("roles", null), ("photoMap", obj [])]).member
        "answers" = some (arr [str "yes"]) ∧
      (obj [("answers", arr [str "yes"]), ("roles", null), ("photoMap", obj [])]).member
        "roles" = some null ∧
      (obj [("answers", arr [str "yes"]), ("roles", null), ("photoMap", obj [])]).member
        "photoMap" = some (obj []) ∧
      readCurrent (Disk.empty "/" fun _ => true) (jsonPathFor "/data" "p1") "p1"
        = some (freshCurrent "p1") ∧
      (postAnswers "/data" (Disk.empty "/" fun _ => true) "p1"
        (some (obj [("answers", arr [str "yes"]), ("roles", null), ("photoMap", obj [])]))
        "t1" "t2").1.status = 200) ∧
    ∃ rec,
      getAnswers "/data" (postAnswers "/data" (Disk.empty "/" fun _ => true) "p1"
        (some (obj [("answers", arr [str "yes"]), ("roles", null), ("photoMap", obj [])]))
        "t1" "t2").2 "p1" = Response.send 200 (FileText.document rec) ∧
      rec.member "id" = some (str "p1") ∧
      (rec.member "answers"
          = (obj [("answers", arr [str "yes"]), ("roles", null), ("photoMap", obj [])]).member
              "answers" ↔
        (∃ items, arr [str "yes"] = arr items ∧ (arr [str "yes"]).written = arr [str "yes"]) ∨
        ((∀ items, arr [str "yes"] ≠ arr items) ∧
          ∃ c, (freshCurrent "p1").member "answers" = some c ∧ c.truthy = true ∧
            c.written = arr [str "yes"])) ∧
      (rec.member "roles"
          = (obj [("answers", arr [str "yes"]), ("roles", null), ("photoMap", obj [])]).member
              "roles" ↔
        (null.truthy = true ∧ null.written = null) ∨
        (null = null ∧
          ∀ c, (freshCurrent "p1").member "roles" = some c → c.truthy = true →
            c.written = null)) ∧
      (rec.member "photoMap"
          = (obj [("answers", arr [str "yes"]), ("roles", null), ("photoMap", obj [])]).member
              "photoMap" ↔
        ((obj []).truthy = true ∧ (obj []).written = obj []) ∨
        (obj [] = null ∧
          ∃ c, (freshCurrent "p1").member "photoMap" = some c ∧ c.truthy = true ∧
            c.written = null)) :=
  ⟨⟨rfl, rfl, rfl, rfl, rfl⟩,
   save_then_fetch_round_trip "/data" (Disk.empty "/" fun _ => true) "p1"
     (obj [("answers", arr [str "yes"]), ("roles", null), ("photoMap", obj [])])
     "t1" "t2" (arr [str "yes"]) null (obj []) (freshCurrent "p1") rfl rfl rfl rfl rfl⟩

/-! ## C6: fetch of a file that is not valid JSON -/

/-- C6, as stated, fails: the file of `p1` holds a text that is not valid
JSON, and the fetch answers 200 with that text, not 500. -/
theorem fetch_of_garbage_is_200 :
    getAnswers "/data"
        { cwd := "/",
          entries := fun p =>
            if p = "/data/p1.json" then some (Entry.file (FileText.garbage "not json")) else none,
          writable := fun _ => true } "p1"
      = Response.send 200 (FileText.garbage "not json") :=
  rfl

/-- C6 (amended): for every participant ID whose stored file exists but whose
content is not valid JSON, fetch answers does not parse the file: it responds
200 with the stored content verbatim. -/
theorem fetch_does_not_parse (DATA_DIR : String) (d : Disk) (pid raw : String)
    (h : d.entries (resolve d.cwd (jsonPathFor DATA_DIR pid))
      = some (Entry.file (FileText.garbage raw))) :
    (FileText.garbage raw).parse = none ∧
    getAnswers DATA_DIR d pid = Response.send 200 (FileText.garbage raw) :=
  ⟨rfl, getAnswers_of_file h⟩

/-- The amended C6 at a concrete input. -/
theorem fetch_does_not_parse_witness :
    ((fun p => if p = "/data/p1.json" then some (Entry.file (FileText.garbage "not json"))
        else none)
        (resolve "/" (jsonPathFor "/data" "p1")) = some (Entry.file (FileText.garbage "not json"))) ∧
    ((FileText.garbage "not json").parse = none ∧
      getAnswers "/data"
          { cwd := "/",
            entries := fun p =>
              if p = "/data/p1.json" then some (Entry.file (FileText.garbage "not json"))
              else none,
            writable := fun _ => true } "p1"
        = Response.send 200 (FileText.garbage "not json")) :=
  ⟨rfl,
   fetch_does_not_parse "/data"
     { cwd := "/",
       entries := fun p =>
         if p = "/data/p1.json" then some (Entry.file (FileText.garbage "not json")) else none,
       writable := fun _ => true } "p1" "not json" rfl⟩

/-! ## C7: create followed by fetch -/

/-- C7: for every name input (including an absent name or body) and every
generated ID, a successful create participant followed immediately by a fetch
of the returned ID returns a record with answers equal to the empty array,
roles equal to null and photoMap equal to the empty mapping. -/
theorem create_then_fetch (DATA_DIR : String) (d : Disk) (body : Option JSON) (id now : String)
    (hok : (postParticipants DATA_DIR d body id now).1.status = 200) :
    (postParticipants DATA_DIR d body id now).1
      = Response.json 200 (obj [("id", str id),
          ("name", orElse ((bodyOrEmpty body).member "name") null), ("created_at", str now)]) ∧
    ∃ rec,
      getAnswers DATA_DIR (postParticipants DATA_DIR d body id now).2 id
        = Response.send 200 (FileText.document rec) ∧
      rec.member "answers" = some (arr []) ∧
      rec.member "roles" = some null ∧
      rec.member "photoMap" = some (obj []) := by
  rcases postParticipants_cases DATA_DIR d body id now with h | ⟨_, hresp, h⟩
  · rw [h] at hok; simp [Response.status] at hok
  · refine ⟨hresp, (newRecord ((bodyOrEmpty body).member "name") id now).written, ?_,
      ?_, ?_, ?_⟩
    · rw [h]; exact getAnswers_of_file (by simp)
    · rw [member_written]; rfl
    · rw [member_written]; rfl
    · rw [member_written]; rfl

/-- C7 at a concrete input: a create without a body. -/
theorem create_then_fetch_witness :
    (postParticipants "/data" (Disk.empty "/" fun _ => true) none "abcdefghij" "t1").1.status
      = 200 ∧
    ((postParticipants "/data" (Disk.empty "/" fun _ => true) none "abcdefghij" "t1").1
      = Response.json 200 (obj [("id", str "abcdefghij"),
          ("name", orElse ((bodyOrEmpty none).member "name") null), ("created_at", str "t1")]) ∧
    ∃ rec,
      getAnswers "/data"
          (postParticipants "/data" (Disk.empty "/" fun _ => true) none "abcdefghij" "t1").2
          "abcdefghij"
        = Response.send 200 (FileText.document rec) ∧
      rec.member "answers" = some (arr []) ∧
      rec.member "roles" = some null ∧
      rec.member "photoMap" = some (obj [])) :=
  ⟨rfl, create_then_fetch "/data" (Disk.empty "/" fun _ => true) none "abcdefghij" "t1" rfl⟩

/-! ## Paths of identifiers without a separator -/

/-- A piece that `normalizeString` keeps as it is. -/
theorem pushSegment_kept (allow : Bool) (res : List (List Char)) {seg : List Char}
    (h : 3 ≤ seg.length) : pushSegment allow res seg = seg :: res := by
  have h1 : seg ≠ [] := by rintro rfl; simp at h
  have h2 : seg ≠ ['.'] := by rintro rfl; simp at h
  have h3 : seg ≠ ['.', '.'] := by rintro rfl; simp at h
  simp [pushSegment, h1, h2, h3]

theorem splitSep_ne_nil (x : List Char) : splitSep x ≠ [] := by
  cases x with
  | nil => simp [splitSep]
  | cons c cs =>
    unfold splitSep
    split
    · simp
    · split <;> simp

theorem splitSep_of_no_sep {s : List Char} (h : '/' ∉ s) : splitSep s = [s] := by
  induction s with
  | nil => rfl
  | cons c cs ih =>
    have hc : c ≠ '/' := fun e => h (by simp [e])
    have hcs : '/' ∉ cs := fun e => h (by simp [e])
    simp [splitSep, hc, ih hcs]

theorem splitSep_append_sep (x : List Char) {s : List Char} (h : '/' ∉ s) :
    splitSep (x ++ '/' :: s) = splitSep x ++ [s] := by
  induction x with
  | nil => simp [splitSep, splitSep_of_no_sep h]
  | cons c cs ih =>
    by_cases hc : c = '/'
    · simp [splitSep, hc, ih]
    · have hne := splitSep_ne_nil cs
      cases hsp : splitSep cs with
      | nil => exact absurd hsp hne
      | cons y ys => simp [splitSep, hc, ih, hsp]

theorem intercalate_append_singleton (sep : List Char) (L : List (List Char)) (s : List Char) :
    List.intercalate sep (L ++ [s])
      = (if L = [] then [] else List.intercalate sep L ++ sep) ++ s := by
  induction L with
  | nil => simp [List.intercalate]
  | cons y ys ih =>
    cases ys with
    | nil => simp [List.intercalate, List.intersperse]
    | cons z zs =>
      simp only [List.intercalate] at ih ⊢
      simp [List.intersperse] at ih ⊢
      simp [ih]

theorem leadOf_shape (K : List (List Char)) :
    leadOf K = [] ∨ (leadOf K).getLast? = some '/' := by
  unfold leadOf
  split
  · left; rfl
  · right; simp

theorem normalizeString_append_sep (x : List Char) (allow : Bool) {s : List Char}
    (h : '/' ∉ s) (hlen : 3 ≤ s.length) :
    normalizeString (x ++ '/' :: s) allow
      = leadOf ((splitSep x).foldl (pushSegment allow) []).reverse ++ s := by
  unfold normalizeString leadOf
  rw [splitSep_append_sep x h, List.foldl_append]
  simp only [List.foldl_cons, List.foldl_nil]
  rw [pushSegment_kept allow _ hlen, List.reverse_cons, intercalate_append_singleton]

/-- The normal form of `x/s` for a piece `s` without separator ends in `s`,
after a part that depends on `x` alone and is empty or ends in a separator. -/
theorem normalize_append_sep (x : List Char) :
    ∃ pre : List Char, (pre = [] ∨ pre.getLast? = some '/') ∧
      ∀ s : List Char, '/' ∉ s → 3 ≤ s.length → normalize (x ++ '/' :: s) = pre ++ s := by
  refine ⟨(if (x ++ ['/']).head? = some '/' then ['/'] else []) ++
    leadOf ((splitSep x).foldl
      (pushSegment (!decide ((x ++ ['/']).head? = some '/'))) []).reverse, ?_, ?_⟩
  · rcases leadOf_shape ((splitSep x).foldl
      (pushSegment (!decide ((x ++ ['/']).head? = some '/'))) []).reverse with h | h
    · rw [h]
      by_cases ha : (x ++ ['/']).head? = some '/'
      · right; rw [if_pos ha]; rfl
      · left; rw [if_neg ha]; rfl
    · right
      rw [List.getLast?_append_of_ne_nil _ (by intro e; rw [e] at h; cases h)]
      exact h
  intro s hs hlen
  have hs0 : s ≠ [] := by rintro rfl; simp at hlen
  have hne : x ++ '/' :: s ≠ [] := by simp
  have hhead : (x ++ '/' :: s).head? = (x ++ ['/']).head? := by
    cases x with
    | nil => rfl
    | cons c cs => rfl
  have hlast : (x ++ '/' :: s).getLast? ≠ some '/' := by
    rw [List.getLast?_append_of_ne_nil _ (by simp)]
    cases s with
    | nil => exact absurd rfl hs0
    | cons c cs =>
      rw [List.getLast?_cons_cons]
      intro hl
      exact hs (List.mem_of_getLast?_eq_some hl)
  unfold normalize
  simp only [hne, if_false, hhead]
  rw [normalizeString_append_sep x _ hs hlen]
  simp only [hlast, if_false]
  have hp : ∀ q : List Char, q ++ s ≠ [] := by
    intro q hq
    exact hs0 (List.append_eq_nil.mp hq).2
  simp only [hp, if_false]
  by_cases ha : (x ++ ['/']).head? = some '/'
  · simp only [if_pos ha]; rfl
  · simp only [if_neg ha]; rfl

theorem normalize_of_no_sep {s : List Char} (hs : '/' ∉ s) (hlen : 3 ≤ s.length) :
    normalize s = s := by
  have hne : s ≠ [] := by rintro rfl; simp at hlen
  have hhead : s.head? ≠ some '/' := fun hh => hs (List.mem_of_mem_head? hh)
  have hlast : s.getLast? ≠ some '/' := fun hl => hs (List.mem_of_getLast?_eq_some hl)
  unfold normalize
  simp only [hne, if_false, hhead, hlast]
  unfold normalizeString
  rw [splitSep_of_no_sep hs]
  simp only [List.foldl_cons, List.foldl_nil]
  rw [pushSegment_kept _ _ hlen]
  simp [List.intercalate, hne]

/-- Joining a path with a piece `s` without separator gives a part that
depends on the path alone, empty or ending in a separator, followed by `s`. -/
theorem pathJoin_piece (a : String) :
    ∃ pre : List Char, (pre = [] ∨ pre.getLast? = some '/') ∧
      ∀ s : List Char, '/' ∉ s → 3 ≤ s.length → (pathJoin a (String.mk s)).data = pre ++ s := by
  cases hD : a.data with
  | nil =>
    refine ⟨[], Or.inl rfl, ?_⟩
    intro s hs hlen
    have hne : s ≠ [] := by rintro rfl; simp at hlen
    unfold pathJoin
    rw [hD]
    cases hq : s with
    | nil => exact absurd hq hne
    | cons c cs =>
      simp only [List.nil_append]
      rw [← hq]
      exact normalize_of_no_sep hs hlen
  | cons c cs =>
    obtain ⟨pre, hshape, hpre⟩ := normalize_append_sep (c :: cs)
    refine ⟨pre, hshape, ?_⟩
    intro s hs hlen
    have hne : s ≠ [] := by rintro rfl; simp at hlen
    unfold pathJoin
    rw [hD]
    cases hq : s with
    | nil => exact absurd hq hne
    | cons e es =>
      simp only []
      rw [← hq]
      exact hpre _ hs hlen

/-- Resolving a path that ends in a piece `s` without separator gives a part
that depends on the rest alone and ends in a separator, followed by `s`. -/
theorem resolve_piece (cwd : String) (pre : List Char)
    (hshape : pre = [] ∨ pre.getLast? = some '/') :
    ∃ lead : List Char, lead.getLast? = some '/' ∧
      ∀ s : List Char, '/' ∉ s → 3 ≤ s.length →
        (resolve cwd (String.mk (pre ++ s))).data = lead ++ s := by
  rcases hshape with rfl | hlast
  · refine ⟨'/' :: leadOf ((splitSep cwd.data).foldl (pushSegment false) []).reverse, ?_, ?_⟩
    · rcases leadOf_shape ((splitSep cwd.data).foldl (pushSegment false) []).reverse with h | h
      · rw [h]; rfl
      · have hne : leadOf ((splitSep cwd.data).foldl (pushSegment false) []).reverse ≠ [] := by
          intro e; rw [e] at h; cases h
        cases hl : leadOf ((splitSep cwd.data).foldl (pushSegment false) []).reverse with
        | nil => exact absurd hl hne
        | cons y ys => rw [List.getLast?_cons_cons, ← hl]; exact h
    · intro s hs hlen
      have hhead : s.head? ≠ some '/' := fun hh => hs (List.mem_of_mem_head? hh)
      unfold resolve
      simp only [List.nil_append, hhead, if_false]
      rw [normalizeString_append_sep _ _ hs hlen]
      rfl
  · obtain ⟨y, rfl⟩ := List.getLast?_eq_some_iff.mp hlast
    by_cases habs : (y ++ ['/']).head? = some '/'
    · refine ⟨'/' :: leadOf ((splitSep y).foldl (pushSegment false) []).reverse, ?_, ?_⟩
      · rcases leadOf_shape ((splitSep y).foldl (pushSegment false) []).reverse with h | h
        · rw [h]; rfl
        · have hne : leadOf ((splitSep y).foldl (pushSegment false) []).reverse ≠ [] := by
            intro e; rw [e] at h; cases h
          cases hl : leadOf ((splitSep y).foldl (pushSegment false) []).reverse with
          | nil => exact absurd hl hne
          | cons z zs => rw [List.getLast?_cons_cons, ← hl]; exact h
      · intro s hs hlen
        have hhead : ((y ++ ['/']) ++ s).head? = some '/' := by
          cases y with
          | nil => rfl
          | cons c cs => simpa using habs
        unfold resolve
        simp only [hhead, if_true]
        have : (y ++ ['/']) ++ s = y ++ '/' :: s := by simp
        rw [this, normalizeString_append_sep _ _ hs hlen]
        rfl
    · refine ⟨'/' :: leadOf ((splitSep (cwd.data ++ '/' :: y)).foldl
        (pushSegment false) []).reverse, ?_, ?_⟩
      · rcases leadOf_shape ((splitSep (cwd.data ++ '/' :: y)).foldl
          (pushSegment false) []).reverse with h | h
        · rw [h]; rfl
        · have hne : leadOf ((splitSep (cwd.data ++ '/' :: y)).foldl
              (pushSegment false) []).reverse ≠ [] := by
            intro e; rw [e] at h; cases h
          cases hl : leadOf ((splitSep (cwd.data ++ '/' :: y)).foldl
              (pushSegment false) []).reverse with
          | nil => exact absurd hl hne
          | cons z zs => rw [List.getLast?_cons_cons, ← hl]; exact h
      · intro s hs hlen
        have hhead : ((y ++ ['/']) ++ s).head? ≠ some '/' := by
          cases y with
          | nil => exact absurd rfl habs
          | cons c cs => simpa using habs
        unfold resolve
        simp only [hhead, if_false]
        have : cwd.data ++ '/' :: ((y ++ ['/']) ++ s) = (cwd.data ++ '/' :: y) ++ '/' :: s := by
          simp
        rw [this, normalizeString_append_sep _ _ hs hlen]
        rfl

/-- The file that `path.join(a, s)` names, for a piece `s` without separator:
a part that depends on `a` and the working directory alone, followed by `s`. -/
theorem resolve_pathJoin_piece (cwd a : String) :
    ∃ lead : List Char, lead.getLast? = some '/' ∧
      ∀ s : List Char, '/' ∉ s → 3 ≤ s.length →
        (resolve cwd (pathJoin a (String.mk s))).data = lead ++ s := by
  obtain ⟨pre, hshape, hpre⟩ := pathJoin_piece a
  obtain ⟨lead, hlead, hres⟩ := resolve_piece cwd pre hshape
  refine ⟨lead, hlead, ?_⟩
  intro s hs hlen
  have : pathJoin a (String.mk s) = String.mk (pre ++ s) := String.ext (hpre s hs hlen)
  rw [this]
  exact hres s hs hlen

theorem json_suffix_data : (".json" : String).data = ['.', 'j', 's', 'o', 'n'] := rfl

theorem json_piece {pid : String} (hp : slashFree pid) :
    '/' ∉ pid.data ++ ['.', 'j', 's', 'o', 'n'] ∧
      3 ≤ (pid.data ++ ['.', 'j', 's', 'o', 'n']).length := by
  refine ⟨?_, by simp⟩
  intro hmem
  rcases List.mem_append.mp hmem with h | h
  · exact hp h
  · revert h; decide

theorem json_name_eq (pid : String) :
    pid ++ ".json" = String.mk (pid.data ++ ['.', 'j', 's', 'o', 'n']) :=
  String.ext (by rw [String.data_append, json_suffix_data])

/-- Two participant IDs without separator whose JSON paths name the same file
are equal. -/
theorem jsonPathFor_injective {cwd DATA_DIR k1 k2 : String} (h1 : slashFree k1)
    (h2 : slashFree k2)
    (h : resolve cwd (jsonPathFor DATA_DIR k1) = resolve cwd (jsonPathFor DATA_DIR k2)) :
    k1 = k2 := by
  obtain ⟨lead, _, hres⟩ := resolve_pathJoin_piece cwd DATA_DIR
  have e := congrArg String.data h
  unfold jsonPathFor at e
  rw [json_name_eq k1, json_name_eq k2, hres _ (json_piece h1).1 (json_piece h1).2,
    hres _ (json_piece h2).1 (json_piece h2).2] at e
  have e2 := List.append_cancel_right (List.append_cancel_left e)
  exact String.ext e2

theorem slashFree_of_isNanoid {id : String} (h : isNanoid id) : slashFree id := by
  intro hm
  have := h.2 _ hm
  revert this
  decide

/-! ## Runs of requests -/

/-- What a request does to the file system: nothing (it failed), or it
replaces the file at the path of its participant ID by a written record that
carries this ID. The working directory stays as it is. -/
theorem step_cases (DATA_DIR : String) (d : Disk) (r : Request) :
    step DATA_DIR d r = d ∨
    ∃ rec, rec.member "id" = some (str r.target) ∧ Written rec ∧
      step DATA_DIR d r
        = { d with entries := fun p =>
              if p = resolve d.cwd (jsonPathFor DATA_DIR r.target) then
                some (Entry.file (FileText.document rec))
              else d.entries p } := by
  cases r with
  | create body id now =>
    rcases postParticipants_cases DATA_DIR d body id now with h | ⟨_, _, h⟩
    · left; simp [step, h]
    · right
      refine ⟨(newRecord ((bodyOrEmpty body).member "name") id now).written, ?_,
        Or.inl ⟨_, _, _, rfl⟩, by simp [step, h, Request.target]⟩
      rw [member_written]; rfl
  | save pid body nowC nowU =>
    rcases postAnswers_cases DATA_DIR d pid body nowC nowU with h | ⟨current, m, _, hm, _, h⟩
    · left; simp [step, h]
    · right
      refine ⟨m.written, ?_, Or.inr ⟨_, _, _, _, _, m, hm, rfl⟩, by simp [step, h, Request.target]⟩
      rw [member_written, (merged_fields hm).1]; rfl

theorem step_cwd (DATA_DIR : String) (d : Disk) (r : Request) :
    (step DATA_DIR d r).cwd = d.cwd := by
  rcases step_cases DATA_DIR d r with e | ⟨_, _, _, e⟩ <;> rw [e]

/-- A property of the file system that every request of a list preserves
holds after the whole list. -/
theorem run_induction (DATA_DIR : String) (P : Disk → Prop) (reqs : List Request) :
    ∀ d : Disk, P d → (∀ d r, r ∈ reqs → P d → P (step DATA_DIR d r)) →
      P (run DATA_DIR d reqs) := by
  induction reqs with
  | nil => intro d h0 _; exact h0
  | cons r rs ih =>
    intro d h0 hstep
    show P (run DATA_DIR (step DATA_DIR d r) rs)
    exact ih _ (hstep d r (by simp) h0) (fun d2 r2 hr2 h => hstep d2 r2 (by simp [hr2]) h)

/-- When every request is plain, everything in a file system reached from
the empty one is a file at the path of an ID without separator, and holds a
record that carries this ID. -/
theorem run_plain_id (DATA_DIR cwd : String) (writable : String → Bool) (reqs : List Request)
    (hplain : ∀ r ∈ reqs, r.plain) {p : String} {e : Entry}
    (h : (run DATA_DIR (Disk.empty cwd writable) reqs).entries p = some e) :
    ∃ k rec, slashFree k ∧ p = resolve cwd (jsonPathFor DATA_DIR k) ∧
      e = Entry.file (FileText.document rec) ∧ rec.member "id" = some (str k) := by
  have key := run_induction DATA_DIR
    (fun d => d.cwd = cwd ∧ ∀ p e, d.entries p = some e →
      ∃ k rec, slashFree k ∧ p = resolve cwd (jsonPathFor DATA_DIR k) ∧
        e = Entry.file (FileText.document rec) ∧ rec.member "id" = some (str k))
    reqs (Disk.empty cwd writable) ⟨rfl, by intro p e h; simp [Disk.empty] at h⟩
    (by
      intro d r hr ⟨hcwd, hd⟩
      refine ⟨by rw [step_cwd, hcwd], ?_⟩
      intro p e he
      rcases step_cases DATA_DIR d r with eq | ⟨rec, hid, _, eq⟩
      · rw [eq] at he; exact hd p e he
      · rw [eq] at he
        by_cases hp : p = resolve d.cwd (jsonPathFor DATA_DIR r.target)
        · simp [hp] at he
          have hk : slashFree r.target := by
            have := hplain r hr
            cases r with
            | create body id now => exact slashFree_of_isNanoid this
            | save pid body nowC nowU => exact this
          exact ⟨r.target, rec, hk, by rw [hp, hcwd], he.symm, hid⟩
        · simp [hp] at he; exact hd p e he)
  exact key.2 p e h

/-! ## C2: a save with only answers -/

/-- In a record the handlers wrote, roles and photoMap are each a value that
is truthy or `null` and that is written as itself. -/
theorem written_shape {rec : JSON} (h : Written rec) :
    (∃ v, rec.member "roles" = some v ∧ (v.truthy = true ∨ v = null) ∧ v.written = v) ∧
    (∃ v, rec.member "photoMap" = some v ∧ (v.truthy = true ∨ v = null) ∧ v.written = v) := by
  have key : ∀ x : JSON, (x.truthy = true ∨ x = null) →
      (x.written.truthy = true ∨ x.written = null) ∧ x.written.written = x.written := by
    intro x hx
    refine ⟨?_, written_idem x⟩
    rcases hx with hx | hx
    · exact written_truthy_or_null hx
    · right; rw [hx]; rfl
  rcases h with ⟨name, id, now, rfl⟩ | ⟨pid, payload, current, nowC, nowU, m, hm, rfl⟩
  · refine ⟨⟨null, ?_, Or.inr rfl, rfl⟩, ⟨obj [], ?_, Or.inl rfl, rfl⟩⟩
    · rw [member_written]; rfl
    · rw [member_written]; rfl
  · obtain ⟨_, _, _, hroles, hphoto⟩ := merged_fields hm
    constructor
    · have hx : (orElse (payload.member "roles") (orElse (current.member "roles") null)).truthy
          = true ∨ orElse (payload.member "roles") (orElse (current.member "roles") null)
          = null := by
        rcases orElse_truthy_or (payload.member "roles") (orElse (current.member "roles") null)
          with h1 | h1
        · exact Or.inl h1
        · rw [h1]
          exact orElse_truthy_or (current.member "roles") null
      exact ⟨_, by rw [member_written, hroles]; rfl, (key _ hx).1, (key _ hx).2⟩
    · have hx : (orElse (payload.member "photoMap")
          (orElse (current.member "photoMap") (obj []))).truthy = true :=
        truthy_orElse (truthy_orElse rfl)
      exact ⟨_, by rw [member_written, hphoto]; rfl, (key _ (Or.inl hx)).1, (key _ (Or.inl hx)).2⟩

/-- C2, as stated, fails: a first save for `p1` whose payload supplies the
photoMap `1e400` (read as `Infinity`) stores a record whose photoMap is
`null`; the save that follows, with a payload that contains only answers,
turns the photoMap into the empty mapping. -/
theorem answers_only_save_changes_null_photoMap :
    (run "/data" (Disk.empty "/" fun _ => true)
        [Request.save "p1" (some (obj [("photoMap", inf false)])) "t1" "t1"]).entries
          "/data/p1.json"
      = some (Entry.file (FileText.document (obj
          [("id", str "p1"), ("name", null), ("created_at", str "t1"), ("updated_at", str "t1"),
           ("answers", arr []), ("roles", null), ("photoMap", null)]))) ∧
    (postAnswers "/data"
        (run "/data" (Disk.empty "/" fun _ => true)
          [Request.save "p1" (some (obj [("photoMap", inf false)])) "t1" "t1"])
        "p1" (some (obj [("answers", arr [str "yes"])])) "t2" "t2").2.entries "/data/p1.json"
      = some (Entry.file (FileText.document (obj
          [("id", str "p1"), ("name", null), ("created_at", str "t1"), ("updated_at", str "t2"),
           ("answers", arr [str "yes"]), ("roles", null), ("photoMap", obj [])]))) ∧
    resolve "/" (jsonPathFor "/data" "p1") = "/data/p1.json" :=
  ⟨rfl, rfl, rfl⟩

/-- C2 (amended): for every participant record that was written by the create
operation or by a save operation, a save whose payload contains only the
answers field leaves the record's roles equal to its value before the save,
and leaves its photoMap equal to its value before the save unless that value
is `null` (as it is after a save whose photoMap was a number beyond the
double range); a successful save turns a `null` photoMap into the empty
mapping. -/
theorem answers_only_save_keeps_roles_and_photoMap (DATA_DIR : String) (d : Disk)
    (pid : String) (rec answers : JSON) (nowC nowU : String) (hw : Written rec)
    (hrec : d.entries (resolve d.cwd (jsonPathFor DATA_DIR pid))
      = some (Entry.file (FileText.document rec))) :
    ∃ rec2,
      (postAnswers DATA_DIR d pid (some (obj [("answers", answers)])) nowC nowU).2.entries
          (resolve d.cwd (jsonPathFor DATA_DIR pid))
        = some (Entry.file (FileText.document rec2)) ∧
      rec2.member "roles" = rec.member "roles" ∧
      (rec.member "photoMap" ≠ some null → rec2.member "photoMap" = rec.member "photoMap") ∧
      (rec.member "photoMap" = some null →
        (postAnswers DATA_DIR d pid (some (obj [("answers", answers)])) nowC nowU).1.status = 200 →
        rec2.member "photoMap" = some (obj [])) := by
  obtain ⟨⟨r, hr, hrt, hrw⟩, ⟨m, hm, hmt, hmw⟩⟩ := written_shape hw
  rcases postAnswers_cases DATA_DIR d pid (some (obj [("answers", answers)])) nowC nowU
    with h | ⟨current, mg, hcur, hmg, _, h⟩
  · refine ⟨rec, by rw [h]; exact hrec, rfl, fun _ => rfl, ?_⟩
    intro _ hok
    rw [h] at hok
    simp [Response.status] at hok
  · rw [readCurrent_of_document hrec] at hcur
    injection hcur with hcur
    subst hcur
    obtain ⟨_, _, _, hroles, hphoto⟩ := merged_fields hmg
    have hpr : (bodyOrEmpty (some (obj [("answers", answers)]))).member "roles" = none := rfl
    have hpp : (bodyOrEmpty (some (obj [("answers", answers)]))).member "photoMap" = none := rfl
    rw [hpr, hr] at hroles
    rw [hpp, hm] at hphoto
    have e1 : orElse none (orElse (some r) null) = r := by
      show orElse (some r) null = r
      rcases hrt with h1 | h1
      · exact orElse_of_truthy rfl h1
      · subst h1; rfl
    refine ⟨mg.written, by rw [h]; simp, ?_, ?_, ?_⟩
    · rw [member_written, hroles, hr, e1]
      show some r.written = some r
      rw [hrw]
    · intro hne
      have hmt2 : m.truthy = true := by
        rcases hmt with h1 | h1
        · exact h1
        · exact absurd (by rw [hm, h1]) hne
      have e2 : orElse none (orElse (some m) (obj [])) = m := by
        show orElse (some m) (obj []) = m
        exact orElse_of_truthy rfl hmt2
      rw [member_written, hphoto, hm, e2]
      show some m.written = some m
      rw [hmw]
    · intro hnull _
      rw [hm] at hnull
      injection hnull with hnull
      subst hnull
      rw [member_written, hphoto]
      rfl

/-- The amended C2 at a concrete input: a participant is created, a save sets
roles and photoMap, and a save with only answers follows. -/
theorem answers_only_save_keeps_roles_and_photoMap_witness :
    (Written (obj
        [("id", str "abcdefghij"), ("name", null), ("created_at", str "t0"),
         ("updated_at", str "t1"), ("answers", arr []), ("roles", str "guide"),
         ("photoMap", obj [("q1", str "a.png")])]) ∧
      (run "/data" (Disk.empty "/" fun _ => true)
          [Request.create none "abcdefghij" "t0",
           Request.save "abcdefghij"
             (some (obj [("roles", str "guide"), ("photoMap", obj [("q1", str "a.png")])]))
             "t1" "t1"]).entries
            (resolve "/" (jsonPathFor "/data" "abcdefghij"))
        = some (Entry.file (FileText.document (obj
            [("id", str "abcdefghij"), ("name", null), ("created_at", str "t0"),
             ("updated_at", str "t1"), ("answers", arr []), ("roles", str "guide"),
             ("photoMap", obj [("q1", str "a.png")])])))) ∧
    ∃ rec2,
      (postAnswers "/data"
          (run "/data" (Disk.empty "/" fun _ => true)
            [Request.create none "abcdefghij" "t0",
             Request.save "abcdefghij"
               (some (obj [("roles", str "guide"), ("photoMap", obj [("q1", str "a.png")])]))
               "t1" "t1"])
          "abcdefghij" (some (obj [("answers", arr [str "yes"])])) "t2" "t2").2.entries
            (resolve "/" (jsonPathFor "/data" "abcdefghij"))
        = some (Entry.file (FileText.document rec2)) ∧
      rec2.member "roles"
        = (obj [("id", str "abcdefghij"), ("name", null), ("created_at", str "t0"),
           ("updated_at", str "t1"), ("answers", arr []), ("roles", str "guide"),
           ("photoMap", obj [("q1", str "a.png")])]).member "roles" ∧
      ((obj [("id", str "abcdefghij"), ("name", null), ("created_at", str "t0"),
           ("updated_at", str "t1"), ("answers", arr []), ("roles", str "guide"),
           ("photoMap", obj [("q1", str "a.png")])]).member "photoMap" ≠ some null →
        rec2.member "photoMap"
          = (obj [("id", str "abcdefghij"), ("name", null), ("created_at", str "t0"),
             ("updated_at", str "t1"), ("answers", arr []), ("roles", str "guide"),
             ("photoMap", obj [("q1", str "a.png")])]).member "photoMap") ∧
      ((obj [("id", str "abcdefghij"), ("name", null), ("created_at", str "t0"),
           ("updated_at", str "t1"), ("answers", arr []), ("roles", str "guide"),
           ("photoMap", obj [("q1", str "a.png")])]).member "photoMap" = some null →
        (postAnswers "/data"
          (run "/data" (Disk.empty "/" fun _ => true)
            [Request.create none "abcdefghij" "t0",
             Request.save "abcdefghij"
               (some (obj [("roles", str "guide"), ("photoMap", obj [("q1", str "a.png")])]))
               "t1" "t1"])
          "abcdefghij" (some (obj [("answers", arr [str "yes"])])) "t2" "t2").1.status = 200 →
        rec2.member "photoMap" = some (obj [])) :=
  ⟨⟨Or.inr ⟨"abcdefghij",
      obj [("roles", str "guide"), ("photoMap", obj [("q1", str "a.png")])],
      (newRecord none "abcdefghij" "t0").written, "t1", "t1", _, rfl, rfl⟩, rfl⟩,
   answers_only_save_keeps_roles_and_photoMap "/data"
     (run "/data" (Disk.empty "/" fun _ => true)
       [Request.create none "abcdefghij" "t0",
        Request.save "abcdefghij"
          (some (obj [("roles", str "guide"), ("photoMap", obj [("q1", str "a.png")])]))
          "t1" "t1"])
     "abcdefghij"
     (obj [("id", str "abcdefghij"), ("name", null), ("created_at", str "t0"),
           ("updated_at", str "t1"), ("answers", arr []), ("roles", str "guide"),
           ("photoMap", obj [("q1", str "a.png")])])
     (arr [str "yes"]) "t2" "t2"
     (Or.inr ⟨"abcdefghij",
      obj [("roles", str "guide"), ("photoMap", obj [("q1", str "a.png")])],
      (newRecord none "abcdefghij" "t0").written, "t1", "t1", _, rfl, rfl⟩) rfl⟩

/-! ## C9: the id field of a stored record -/

/-- C9, as stated, fails: from the empty directory, a save under the
participant ID `x/../b` writes the file that `path.join` gives both to this
ID and to the ID `b`; the record stored under `b` then has the id field
`x/../b`. -/
theorem stored_id_differs_from_key :
    (run "/data" (Disk.empty "/" fun _ => true)
        [Request.save "x/../b" none "t1" "t2"]).entries (resolve "/" (jsonPathFor "/data" "b"))
      = some (Entry.file (FileText.document (obj
          [("id", str "x/../b"), ("name", null), ("created_at", str "t1"),
           ("updated_at", str "t2"), ("answers", arr []), ("roles", null),
           ("photoMap", obj [])]))) ∧
    getAnswers "/data"
        (run "/data" (Disk.empty "/" fun _ => true) [Request.save "x/../b" none "t1" "t2"]) "b"
      = Response.send 200 (FileText.document (obj
          [("id", str "x/../b"), ("name", null), ("created_at", str "t1"),
           ("updated_at", str "t2"), ("answers", arr []), ("roles", null),
           ("photoMap", obj [])])) ∧
    str "x/../b" ≠ str "b" :=
  ⟨rfl, rfl, by simp⟩

/-- C9 (amended): in every store state reachable from the empty store through
create operations and through save operations whose participant ID contains
no "/", each record stored under a participant ID k that contains no "/" has
its id field equal to k; and every successful save, also one whose payload
carries its own id field, persists the path parameter as id. -/
theorem stored_id_equals_plain_key (DATA_DIR : String) :
    (∀ (cwd : String) (writable : String → Bool) (reqs : List Request), (∀ r ∈ reqs, r.plain) →
      ∀ (k : String) (e : Entry), slashFree k →
        (run DATA_DIR (Disk.empty cwd writable) reqs).entries
            (resolve cwd (jsonPathFor DATA_DIR k)) = some e →
        ∃ rec, e = Entry.file (FileText.document rec) ∧ rec.member "id" = some (str k)) ∧
    (∀ (d : Disk) (pid : String) (body : Option JSON) (nowC nowU : String),
      (postAnswers DATA_DIR d pid body nowC nowU).1.status = 200 →
      ∃ rec,
        (postAnswers DATA_DIR d pid body nowC nowU).2.entries
            (resolve d.cwd (jsonPathFor DATA_DIR pid))
          = some (Entry.file (FileText.document rec)) ∧
        rec.member "id" = some (str pid)) := by
  constructor
  · intro cwd writable reqs hplain k e hk h
    obtain ⟨k2, rec, hk2, hp, he, hid⟩ := run_plain_id DATA_DIR cwd writable reqs hplain h
    have : k = k2 := jsonPathFor_injective hk hk2 hp
    subst this
    exact ⟨rec, he, hid⟩
  · intro d pid body nowC nowU hok
    rcases postAnswers_cases DATA_DIR d pid body nowC nowU with h | ⟨current, m, _, hm, _, h⟩
    · rw [h] at hok; simp [Response.status] at hok
    · refine ⟨m.written, by rw [h]; simp, ?_⟩
      rw [member_written, (merged_fields hm).1]; rfl

/-- The amended C9 at a concrete input: a create, then a save under the
generated ID with a payload that carries another id; and a first save for
`p1` with such a payload. -/
theorem stored_id_equals_plain_key_witness :
    (((∀ r ∈ [Request.create none "abcdefghij" "t0",
              Request.save "abcdefghij" (some (obj [("id", str "other")])) "t1" "t2"], r.plain) ∧
      slashFree "abcdefghij" ∧
      (run "/data" (Disk.empty "/" fun _ => true)
          [Request.create none "abcdefghij" "t0",
           Request.save "abcdefghij" (some (obj [("id", str "other")])) "t1" "t2"]).entries
            (resolve "/" (jsonPathFor "/data" "abcdefghij"))
        = some (Entry.file (FileText.document (obj
            [("id", str "abcdefghij"), ("name", null), ("created_at", str "t0"),
             ("updated_at", str "t2"), ("answers", arr []), ("roles", null),
             ("photoMap", obj [])])))) ∧
    (∃ rec,
      Entry.file (FileText.document (obj
            [("id", str "abcdefghij"), ("name", null), ("created_at", str "t0"),
             ("updated_at", str "t2"), ("answers", arr []), ("roles", null),
             ("photoMap", obj [])])) = Entry.file (FileText.document rec) ∧
      rec.member "id" = some (str "abcdefghij"))) ∧
    ((postAnswers "/data" (Disk.empty "/" fun _ => true) "p1"
        (some (obj [("id", str "other")])) "t1" "t2").1.status = 200 ∧
      ∃ rec,
        (postAnswers "/data" (Disk.empty "/" fun _ => true) "p1"
            (some (obj [("id", str "other")])) "t1" "t2").2.entries
              (resolve "/" (jsonPathFor "/data" "p1"))
          = some (Entry.file (FileText.document rec)) ∧
        rec.member "id" = some (str "p1")) :=
  ⟨⟨⟨by
      intro r hr
      simp at hr
      rcases hr with rfl | rfl
      · show isNanoid "abcdefghij"; decide
      · show slashFree "abcdefghij"; decide,
    by decide, rfl⟩,
   (stored_id_equals_plain_key "/data").1 "/" (fun _ => true)
     [Request.create none "abcdefghij" "t0",
      Request.save "abcdefghij" (some (obj [("id", str "other")])) "t1" "t2"]
     (by
      intro r hr
      simp at hr
      rcases hr with rfl | rfl
      · show isNanoid "abcdefghij"; decide
      · show slashFree "abcdefghij"; decide)
     "abcdefghij" _ (by decide) rfl⟩,
   ⟨rfl, (stored_id_equals_plain_key "/data").2 (Disk.empty "/" fun _ => true) "p1"
     (some (obj [("id", str "other")])) "t1" "t2" rfl⟩⟩

/-! ## C10: created_at is set once -/

theorem saveAll_cwd (DATA_DIR pid : String) (saves : List (Option JSON × String × String)) :
    ∀ d : Disk, (saveAll DATA_DIR d pid saves).cwd = d.cwd := by
  induction saves with
  | nil => intro d; rfl
  | cons s rest ih =>
    intro d
    show (saveAll DATA_DIR (postAnswers DATA_DIR d pid s.1 s.2.1 s.2.2).2 pid rest).cwd = d.cwd
    rw [ih]
    rcases postAnswers_cases DATA_DIR d pid s.1 s.2.1 s.2.2 with e | ⟨_, _, _, _, _, e⟩ <;> rw [e]

/-- A truthy created_at that is written as itself survives every list of
saves to the same ID. -/
theorem saveAll_created_at (DATA_DIR pid : String) (v : JSON) (hv : v.truthy = true)
    (hvw : v.written = v) (saves : List (Option JSON × String × String)) :
    ∀ (d : Disk) (rec : JSON),
      d.entries (resolve d.cwd (jsonPathFor DATA_DIR pid))
        = some (Entry.file (FileText.document rec)) →
      rec.member "created_at" = some v →
      ∃ rec2, (saveAll DATA_DIR d pid saves).entries (resolve d.cwd (jsonPathFor DATA_DIR pid))
          = some (Entry.file (FileText.document rec2)) ∧
        rec2.member "created_at" = some v := by
  induction saves with
  | nil => intro d rec h hc; exact ⟨rec, h, hc⟩
  | cons s rest ih =>
    intro d rec h hc
    show ∃ rec2, (saveAll DATA_DIR (postAnswers DATA_DIR d pid s.1 s.2.1 s.2.2).2 pid rest).entries
      (resolve d.cwd (jsonPathFor DATA_DIR pid)) = some (Entry.file (FileText.document rec2)) ∧ _
    rcases postAnswers_cases DATA_DIR d pid s.1 s.2.1 s.2.2 with e | ⟨current, m, hcur, hm, _, e⟩
    · rw [e]; exact ih d rec h hc
    · rw [readCurrent_of_document h] at hcur
      injection hcur with hcur
      subst hcur
      rw [e]
      refine ih _ m.written (by simp) ?_
      rw [member_written, (merged_fields hm).2.1, hc, orElse_of_truthy rfl hv]
      show some v.written = some v
      rw [hvw]

/-- C10: created_at is set exactly once: for every record written by create or
by a first save (at a clock reading, which is never the empty string), every
later sequence of saves to the same participant ID, with any payloads
(including payloads that carry a created_at field) and at any later times,
leaves created_at equal to the value it was first given. -/
theorem created_at_set_once (DATA_DIR : String) (d : Disk) (pid : String)
    (saves : List (Option JSON × String × String)) :
    (∀ (body : Option JSON) (now : String), now ≠ "" →
      (postParticipants DATA_DIR d body pid now).1.status = 200 →
      ∃ rec,
        getAnswers DATA_DIR
            (saveAll DATA_DIR (postParticipants DATA_DIR d body pid now).2 pid saves) pid
          = Response.send 200 (FileText.document rec) ∧
        rec.member "created_at" = some (str now)) ∧
    (∀ (body : Option JSON) (nowC nowU : String), nowC ≠ "" →
      d.entries (resolve d.cwd (jsonPathFor DATA_DIR pid)) = none →
      (postAnswers DATA_DIR d pid body nowC nowU).1.status = 200 →
      ∃ rec,
        getAnswers DATA_DIR
            (saveAll DATA_DIR (postAnswers DATA_DIR d pid body nowC nowU).2 pid saves) pid
          = Response.send 200 (FileText.document rec) ∧
        rec.member "created_at" = some (str nowC)) := by
  constructor
  · intro body now hnow hok
    rcases postParticipants_cases DATA_DIR d body pid now with h | ⟨_, _, h⟩
    · rw [h] at hok; simp [Response.status] at hok
    · have hcwd : (postParticipants DATA_DIR d body pid now).2.cwd = d.cwd := by rw [h]
      obtain ⟨rec2, hf, hc⟩ := saveAll_created_at DATA_DIR pid (str now) (truthy_str hnow) rfl
        saves (postParticipants DATA_DIR d body pid now).2
        (newRecord ((bodyOrEmpty body).member "name") pid now).written
        (by rw [h]; simp) (by rw [member_written]; rfl)
      refine ⟨rec2, getAnswers_of_file ?_, hc⟩
      rw [saveAll_cwd]
      exact hf
  · intro body nowC nowU hnow hnone hok
    rcases postAnswers_cases DATA_DIR d pid body nowC nowU with h | ⟨current, m, hcur, hm, _, h⟩
    · rw [h] at hok; simp [Response.status] at hok
    · rw [readCurrent_of_nothing hnone] at hcur
      injection hcur with hcur
      subst hcur
      obtain ⟨rec2, hf, hc⟩ := saveAll_created_at DATA_DIR pid (str nowC) (truthy_str hnow) rfl
        saves (postAnswers DATA_DIR d pid body nowC nowU).2 m.written (by rw [h]; simp)
        (by rw [member_written, (merged_fields hm).2.1]; rfl)
      refine ⟨rec2, getAnswers_of_file ?_, hc⟩
      rw [saveAll_cwd]
      exact hf

/-- C10 at a concrete input: a create at `t0`, or a first save at `t0`, then
two saves, the first with a payload that carries its own created_at. -/
theorem created_at_set_once_witness :
    (("t0" ≠ "" ∧
      (postParticipants "/data" (Disk.empty "/" fun _ => true) none "abcdefghij" "t0").1.status
        = 200) ∧
    ∃ rec,
      getAnswers "/data"
          (saveAll "/data"
            (postParticipants "/data" (Disk.empty "/" fun _ => true) none "abcdefghij" "t0").2
            "abcdefghij"
            [(some (obj [("created_at", str "t9"), ("answers", arr [str "yes"])]), "t1", "t2"),
             (none, "t3", "t4")])
          "abcdefghij"
        = Response.send 200 (FileText.document rec) ∧
      rec.member "created_at" = some (str "t0")) ∧
    (("t0" ≠ "" ∧
        (Disk.empty "/" fun _ => true).entries (resolve "/" (jsonPathFor "/data" "abcdefghij"))
          = none ∧
        (postAnswers "/data" (Disk.empty "/" fun _ => true) "abcdefghij" none "t0" "t0").1.status
          = 200) ∧
      ∃ rec,
        getAnswers "/data"
            (saveAll "/data"
              (postAnswers "/data" (Disk.empty "/" fun _ => true) "abcdefghij" none "t0" "t0").2
              "abcdefghij"
              [(some (obj [("created_at", str "t9"), ("answers", arr [str "yes"])]), "t1", "t2"),
               (none, "t3", "t4")])
            "abcdefghij"
          = Response.send 200 (FileText.document rec) ∧
        rec.member "created_at" = some (str "t0")) :=
  ⟨⟨⟨by decide, rfl⟩,
    (created_at_set_once "/data" (Disk.empty "/" fun _ => true) "abcdefghij"
      [(some (obj [("created_at", str "t9"), ("answers", arr [str "yes"])]), "t1", "t2"),
       (none, "t3", "t4")]).1 none "t0" (by decide) rfl⟩,
   ⟨⟨by decide, rfl, rfl⟩,
    (created_at_set_once "/data" (Disk.empty "/" fun _ => true) "abcdefghij"
      [(some (obj [("created_at", str "t9"), ("answers", arr [str "yes"])]), "t1", "t2"),
       (none, "t3", "t4")]).2 none "t0" "t0" (by decide) rfl rfl⟩⟩

/-! ## C5: when fetch answers 404 -/

/-- The operations of the server leave alone every path that none of them
may write at, and never change the working directory. -/
theorem serves_frame {DATA_DIR UPLOAD_DIR : String} {d0 d : Disk} {ops : List Operation}
    (h : Serves DATA_DIR UPLOAD_DIR d0 ops d) :
    d.cwd = d0.cwd ∧
    ∀ p, (∀ op ∈ ops, p ∉ op.touched DATA_DIR UPLOAD_DIR d0.cwd) → d.entries p = d0.entries p := by
  induction h with
  | done d => exact ⟨rfl, fun _ _ => rfl⟩
  | request d r ops d2 _ ih =>
    have hcwd := step_cwd DATA_DIR d r
    rw [hcwd] at ih
    refine ⟨ih.1, ?_⟩
    intro p hp
    rw [ih.2 p (fun op hop => hp op (by simp [hop]))]
    have hne : p ≠ resolve d.cwd (jsonPathFor DATA_DIR r.target) := by
      intro e
      exact hp (Operation.request r) (by simp) (by simp [Operation.touched, e])
    rcases step_cases DATA_DIR d r with e | ⟨_, _, _, e⟩
    · rw [e]
    · rw [e]; simp [hne]
  | upload d d1 pid us ops d2 hcwd hframe _ ih =>
    rw [hcwd] at ih
    refine ⟨ih.1, ?_⟩
    intro p hp
    rw [ih.2 p (fun op hop => hp op (by simp [hop]))]
    exact hframe p (hp (Operation.upload pid us) (by simp))

/-- C5, as stated, fails in three ways. After a create with the generated ID
`abcdefghij`, the ID `./abcdefghij` was never the target of a create or save,
yet its fetch answers 200 with the record of `abcdefghij`, because `path.join`
normalizes both IDs to the same file. When a directory is at the JSON path of
`p1`, no record is stored for `p1`, yet the fetch answers 500, not 404. And
after an upload for the participant ID `..` of a file named `x.json`, which
multer stores in the data directory, the fetch of the ID
`1700000000000_abcdefghij` answers 200 with the uploaded text, though no
create or save has taken place. -/
theorem fetch_of_untargeted_id_is_200 :
    ((∀ r ∈ [Request.create none "abcdefghij" "t1"], r.target ≠ "./abcdefghij") ∧
      getAnswers "/data"
          (run "/data" (Disk.empty "/" fun _ => true) [Request.create none "abcdefghij" "t1"])
          "./abcdefghij"
        = Response.send 200 (FileText.document (obj
            [("id", str "abcdefghij"), ("name", null), ("created_at", str "t1"),
             ("answers", arr []), ("roles", null), ("photoMap", obj [])]))) ∧
    (getAnswers "/data"
        { cwd := "/",
          entries := fun p => if p = "/data/p1.json" then some Entry.directory else none,
          writable := fun _ => true } "p1"
      = Response.json 500 (errorBody "Failed to read data")) ∧
    (Serves "/srv/storage" "/srv/storage/uploads"
        { cwd := "/",
          entries := fun p =>
            if p ∈ ["/", "/srv", "/srv/storage", "/srv/storage/uploads"] then
              some Entry.directory
            else none,
          writable := fun _ => true }
        [Operation.upload ".."
          [{ millis := 1700000000000, id := "abcdefghij", originalname := "x.json" }]]
        { cwd := "/",
          entries := fun p =>
            if p = "/srv/storage/1700000000000_abcdefghij.json" then
              some (Entry.file (FileText.garbage "JFIF"))
            else if p ∈ ["/", "/srv", "/srv/storage", "/srv/storage/uploads"] then
              some Entry.directory
            else none,
          writable := fun _ => true } ∧
      getAnswers "/srv/storage"
          { cwd := "/",
            entries := fun p =>
              if p = "/srv/storage/1700000000000_abcdefghij.json" then
                some (Entry.file (FileText.garbage "JFIF"))
              else if p ∈ ["/", "/srv", "/srv/storage", "/srv/storage/uploads"] then
                some Entry.directory
              else none,
            writable := fun _ => true } "1700000000000_abcdefghij"
        = Response.send 200 (FileText.garbage "JFIF")) := by
  refine ⟨⟨by simp [Request.target], rfl⟩, rfl, ?_, rfl⟩
  refine Serves.upload _ _ _ _ _ _ ?_ ?_ (Serves.done _)
  · rfl
  intro p hp
  have ht : uploadTouched "/" "/srv/storage/uploads" ".."
      [{ millis := 1700000000000, id := "abcdefghij", originalname := "x.json" }]
      = ["/", "/srv", "/srv/storage", "/srv/storage/1700000000000_abcdefghij.json"] := by
    decide
  rw [ht] at hp
  have h1 : p ≠ "/srv/storage/1700000000000_abcdefghij.json" := fun e => hp (by simp [e])
  simp [h1]

/-- C5 (amended): fetch answers responds 404 (with a JSON error body) exactly
when nothing exists at the file that the JSON path of the participant ID
names; when a file is there it responds 200 with the stored text verbatim,
and when a directory is there it responds 500. In particular it responds 404
for every ID at whose JSON file nothing existed at the start and none of the
operations since has written: the file differs from the JSON file of each ID
that was the target of a create or save, and from each directory and file an
upload may write. -/
theorem fetch_404_iff_nothing_there (DATA_DIR : String) (d : Disk) (pid : String) :
    (getAnswers DATA_DIR d pid = Response.json 404 (errorBody "Not found") ↔
      d.entries (resolve d.cwd (jsonPathFor DATA_DIR pid)) = none) ∧
    ((getAnswers DATA_DIR d pid).status = 404 ↔
      d.entries (resolve d.cwd (jsonPathFor DATA_DIR pid)) = none) ∧
    (∀ t, d.entries (resolve d.cwd (jsonPathFor DATA_DIR pid)) = some (Entry.file t) →
      getAnswers DATA_DIR d pid = Response.send 200 t) ∧
    (d.entries (resolve d.cwd (jsonPathFor DATA_DIR pid)) = some Entry.directory →
      getAnswers DATA_DIR d pid = Response.json 500 (errorBody "Failed to read data")) ∧
    (∀ (UPLOAD_DIR : String) (d0 : Disk) (ops : List Operation),
      Serves DATA_DIR UPLOAD_DIR d0 ops d →
      d0.entries (resolve d0.cwd (jsonPathFor DATA_DIR pid)) = none →
      (∀ op ∈ ops,
        resolve d0.cwd (jsonPathFor DATA_DIR pid) ∉ op.touched DATA_DIR UPLOAD_DIR d0.cwd) →
      getAnswers DATA_DIR d pid = Response.json 404 (errorBody "Not found")) := by
  have hcases : ∀ e, d.entries (resolve d.cwd (jsonPathFor DATA_DIR pid)) = some e →
      (getAnswers DATA_DIR d pid).status ≠ 404 := by
    intro e he
    cases e with
    | file t => rw [getAnswers_of_file he]; simp [Response.status]
    | directory => rw [getAnswers_of_directory he]; simp [Response.status]
  refine ⟨?_, ?_, fun t h => getAnswers_of_file h, getAnswers_of_directory, ?_⟩
  · constructor
    · intro h
      cases hf : d.entries (resolve d.cwd (jsonPathFor DATA_DIR pid)) with
      | none => rfl
      | some e => exact absurd (by rw [h]; rfl) (hcases e hf)
    · exact getAnswers_of_nothing
  · constructor
    · intro h
      cases hf : d.entries (resolve d.cwd (jsonPathFor DATA_DIR pid)) with
      | none => rfl
      | some e => exact absurd h (hcases e hf)
    · intro h; rw [getAnswers_of_nothing h]; rfl
  · intro UPLOAD_DIR d0 ops hs hnone hne
    obtain ⟨hcwd, hframe⟩ := serves_frame hs
    apply getAnswers_of_nothing
    rw [hcwd, hframe _ hne]
    exact hnone

/-- The amended C5 at a concrete input: after a create and the upload of a
photo for `p1`, the fetch of an ID that names neither answers 404. -/
theorem fetch_404_iff_nothing_there_witness :
    (Serves "/srv/storage" "/srv/storage/uploads" (Disk.empty "/" fun _ => true)
        [Operation.request (Request.create none "abcdefghij" "t1"),
         Operation.upload "p1"
           [{ millis := 1700000000000, id := "ABCDEFGHJK", originalname := "a.png" }]]
        { cwd := "/",
          entries := fun p =>
            if p = "/srv/storage/uploads/p1/1700000000000_ABCDEFGHJK.png" then
              some (Entry.file (FileText.garbage "PNG"))
            else if p ∈ ["/", "/srv", "/srv/storage", "/srv/storage/uploads",
                "/srv/storage/uploads/p1"] then
              some Entry.directory
            else
              (run "/srv/storage" (Disk.empty "/" fun _ => true)
                [Request.create none "abcdefghij" "t1"]).entries p,
          writable := fun _ => true } ∧
      (Disk.empty "/" fun _ => true).entries
          (resolve "/" (jsonPathFor "/srv/storage" "ABCDEFGHJK")) = none ∧
      (∀ op ∈ [Operation.request (Request.create none "abcdefghij" "t1"),
                Operation.upload "p1"
                  [{ millis := 1700000000000, id := "ABCDEFGHJK", originalname := "a.png" }]],
        resolve "/" (jsonPathFor "/srv/storage" "ABCDEFGHJK")
          ∉ op.touched "/srv/storage" "/srv/storage/uploads" "/")) ∧
    getAnswers "/srv/storage"
        { cwd := "/",
          entries := fun p =>
            if p = "/srv/storage/uploads/p1/1700000000000_ABCDEFGHJK.png" then
              some (Entry.file (FileText.garbage "PNG"))
            else if p ∈ ["/", "/srv", "/srv/storage", "/srv/storage/uploads",
                "/srv/storage/uploads/p1"] then
              some Entry.directory
            else
              (run "/srv/storage" (Disk.empty "/" fun _ => true)
                [Request.create none "abcdefghij" "t1"]).entries p,
          writable := fun _ => true }
        "ABCDEFGHJK"
      = Response.json 404 (errorBody "Not found") := by
  have hserves : Serves "/srv/storage" "/srv/storage/uploads" (Disk.empty "/" fun _ => true)
      [Operation.request (Request.create none "abcdefghij" "t1"),
       Operation.upload "p1"
         [{ millis := 1700000000000, id := "ABCDEFGHJK", originalname := "a.png" }]]
      { cwd := "/",
        entries := fun p =>
          if p = "/srv/storage/uploads/p1/1700000000000_ABCDEFGHJK.png" then
            some (Entry.file (FileText.garbage "PNG"))
          else if p ∈ ["/", "/srv", "/srv/storage", "/srv/storage/uploads",
              "/srv/storage/uploads/p1"] then
            some Entry.directory
          else
            (run "/srv/storage" (Disk.empty "/" fun _ => true)
              [Request.create none "abcdefghij" "t1"]).entries p,
        writable := fun _ => true } := by
    refine Serves.request _ _ _ _ (Serves.upload _ _ _ _ _ _ ?_ ?_ (Serves.done _))
    · rfl
    intro p hp
    have ht : uploadTouched "/" "/srv/storage/uploads" "p1"
        [{ millis := 1700000000000, id := "ABCDEFGHJK", originalname := "a.png" }]
        = ["/", "/srv", "/srv/storage", "/srv/storage/uploads", "/srv/storage/uploads/p1",
           "/srv/storage/uploads/p1/1700000000000_ABCDEFGHJK.png"] := by
      decide
    have hcwd : (step "/srv/storage" (Disk.empty "/" fun _ => true)
        (Request.create none "abcdefghij" "t1")).cwd = "/" := rfl
    rw [hcwd, ht] at hp
    simp only [List.mem_cons, List.mem_singleton, List.not_mem_nil, not_or, or_false] at hp
    obtain ⟨h1, h2, h3, h4, h5, h6⟩ := hp
    simp only [h6, if_false, List.mem_cons, List.mem_singleton, List.not_mem_nil, h1, h2, h3, h4,
      h5, or_self]
    rfl
  exact ⟨⟨hserves, rfl, by decide⟩,
    (fetch_404_iff_nothing_there "/srv/storage" _ "ABCDEFGHJK").2.2.2.2
      "/srv/storage/uploads" (Disk.empty "/" fun _ => true) _ hserves rfl (by decide)⟩

/-! ## C8: the URLs of an upload -/

theorem digitChar_ne_sep : ∀ d : Nat, d < 10 → Nat.digitChar d ≠ '/' := by
  decide

theorem toDigitsCore_no_sep (fuel : Nat) :
    ∀ (n : Nat) (acc : List Char), '/' ∉ acc → '/' ∉ Nat.toDigitsCore 10 fuel n acc := by
  induction fuel with
  | zero => intro n acc h; simpa [Nat.toDigitsCore] using h
  | succ fuel ih =>
    intro n acc h
    have hcons : '/' ∉ Nat.digitChar (n % 10) :: acc := by
      intro hm
      rcases List.mem_cons.mp hm with e | e
      · exact digitChar_ne_sep _ (Nat.mod_lt n (by decide)) e.symm
      · exact h e
    unfold Nat.toDigitsCore
    simp only []
    split
    · exact hcons
    · exact ih _ _ hcons

/-- The decimal text of a number has no separator. -/
theorem toString_nat_no_sep (n : Nat) : '/' ∉ (toString n).data :=
  toDigitsCore_no_sep (n + 1) n [] (by simp)

theorem basename_no_sep (p : String) : '/' ∉ (basename p).data := by
  unfold basename
  simp only [List.mem_reverse]
  intro hm
  have := List.mem_takeWhile_imp hm
  simp at this

theorem extname_no_sep (p : String) : '/' ∉ (extname p).data := by
  unfold extname
  simp only []
  split
  · split
    · simp
    · intro hm
      simp only [List.mem_cons, List.mem_reverse] at hm
      rcases hm with e | e
      · exact absurd e (by decide)
      · have h1 := (List.takeWhile_sublist _).subset e
        exact basename_no_sep p (List.mem_reverse.mp h1)
  · simp

theorem uploadExt_no_sep (o : String) : '/' ∉ (uploadExt o).data := by
  unfold uploadExt
  split
  · exact extname_no_sep o
  · decide

/-- The name the storage gives a file is one piece of a path: it has no
separator and is longer than `..`. -/
theorem uploadFilename_piece (u : Upload) (h : isNanoid u.id) :
    '/' ∉ (uploadFilename u).data ∧ 3 ≤ (uploadFilename u).data.length := by
  have hdata : (uploadFilename u).data
      = (toString u.millis).data ++ ['_'] ++ u.id.data ++ (uploadExt u.originalname).data := by
    simp [uploadFilename, String.data_append]
  rw [hdata]
  constructor
  · intro hm
    simp only [List.mem_append, List.mem_singleton] at hm
    rcases hm with ((e | e) | e) | e
    · exact toString_nat_no_sep _ e
    · exact absurd e (by decide)
    · exact slashFree_of_isNanoid h e
    · exact uploadExt_no_sep _ e
  · simp only [List.length_append, h.1]
    omega

theorem dropWhile_sep_of_last_ne {l : List Char} (h : l.head? ≠ some '/') :
    l.dropWhile (fun c => c = '/') = l := by
  cases l with
  | nil => rfl
  | cons c cs =>
    have hc : c ≠ '/' := fun e => h (by simp [e])
    simp [List.dropWhile, hc]

theorem takeWhile_piece (s lead : List Char) (hs : '/' ∉ s)
    (hlead : lead = [] ∨ lead.head? = some '/') :
    (s ++ lead).takeWhile (fun c => c ≠ '/') = s := by
  induction s with
  | nil =>
    rcases hlead with rfl | hl
    · rfl
    · cases lead with
      | nil => rfl
      | cons c cs =>
        have : c = '/' := by simpa using hl
        simp [List.takeWhile, this]
  | cons c cs ih =>
    have hc : c ≠ '/' := fun e => hs (by simp [e])
    have hcs : '/' ∉ cs := fun e => hs (by simp [e])
    have hstep : ((c :: cs) ++ lead).takeWhile (fun c => c ≠ '/')
        = c :: (cs ++ lead).takeWhile (fun c => c ≠ '/') := by
      simp [List.takeWhile, hc]
    rw [hstep, ih hcs]

/-- The basename of a path that ends in a piece without separator, after a
part that is empty or ends in a separator, is this piece. -/
theorem basename_of_piece (pre s : List Char) (hshape : pre = [] ∨ pre.getLast? = some '/')
    (hs : '/' ∉ s) (hne : s ≠ []) : basename (String.mk (pre ++ s)) = String.mk s := by
  unfold basename
  have hrev : (pre ++ s).reverse = s.reverse ++ pre.reverse := List.reverse_append _ _
  have hhead : (s.reverse ++ pre.reverse).head? ≠ some '/' := by
    intro hh
    have hsne : s.reverse ≠ [] := by simpa using hne
    rw [List.head?_append_of_ne_nil _ hsne] at hh
    exact hs (List.mem_reverse.mp (List.mem_of_mem_head? hh))
  have hlead : pre.reverse = [] ∨ pre.reverse.head? = some '/' := by
    rcases hshape with h | h
    · left; simp [h]
    · right; rw [List.head?_reverse]; exact h
  simp only [hrev]
  rw [dropWhile_sep_of_last_ne hhead,
    takeWhile_piece s.reverse pre.reverse (by simpa using hs) hlead, List.reverse_reverse]

/-- The last component of the path of a stored file is the name the storage
gave it. -/
theorem basename_storedFile (UPLOAD_DIR pid : String) (u : Upload) (h : isNanoid u.id) :
    basename (storedFile UPLOAD_DIR pid u).path = uploadFilename u := by
  obtain ⟨hs, hlen⟩ := uploadFilename_piece u h
  obtain ⟨pre, hshape, hpre⟩ := pathJoin_piece (uploadDestination UPLOAD_DIR pid)
  have hne : (uploadFilename u).data ≠ [] := by
    intro e; rw [e] at hlen; simp at hlen
  have hpath : (storedFile UPLOAD_DIR pid u).path = String.mk (pre ++ (uploadFilename u).data) :=
    String.ext (hpre _ hs hlen)
  rw [hpath, basename_of_piece pre _ hshape hs hne]

theorem uploadUrl_eq (BASE_URL pid : String) (f : UploadedFile) :
    uploadUrl BASE_URL pid f = BASE_URL ++ "/uploads/" ++ pid ++ "/" ++ basename f.path := by
  unfold uploadUrl
  by_cases h : BASE_URL = ""
  · subst h; simp
  · simp [h, String.append_assoc]

/-- C8: for every participant ID, every base URL setting (possibly empty) and
every list of N stored upload files, the upload response contains exactly N
URLs in the order the files were received, the i-th being the base URL
followed by "/uploads/", the participant ID, "/" and the stored filename of
the i-th file (the name the storage callback gave it, under which multer
wrote it in the destination directory). -/
theorem upload_urls_in_order (BASE_URL UPLOAD_DIR pid : String) (us : List Upload)
    (hid : ∀ u ∈ us, isNanoid u.id) :
    postUpload BASE_URL pid (some (us.map (storedFile UPLOAD_DIR pid)))
      = Response.json 200 (obj [("uploaded",
          arr (us.map (fun u =>
            str (BASE_URL ++ "/uploads/" ++ pid ++ "/" ++ uploadFilename u))))]) ∧
    (uploadUrls BASE_URL pid (some (us.map (storedFile UPLOAD_DIR pid)))).length = us.length ∧
    ∀ (i : Nat) (u : Upload), us[i]? = some u →
      (storedFile UPLOAD_DIR pid u).filename = uploadFilename u ∧
      (storedFile UPLOAD_DIR pid u).path
        = pathJoin (pathJoin UPLOAD_DIR pid) (uploadFilename u) ∧
      (uploadUrls BASE_URL pid (some (us.map (storedFile UPLOAD_DIR pid))))[i]?
        = some (BASE_URL ++ "/uploads/" ++ pid ++ "/" ++ uploadFilename u) := by
  have hurl : ∀ u ∈ us, uploadUrl BASE_URL pid (storedFile UPLOAD_DIR pid u)
      = BASE_URL ++ "/uploads/" ++ pid ++ "/" ++ uploadFilename u := by
    intro u hu
    rw [uploadUrl_eq, basename_storedFile UPLOAD_DIR pid u (hid u hu)]
  have hmap : uploadUrls BASE_URL pid (some (us.map (storedFile UPLOAD_DIR pid)))
      = us.map (fun u => BASE_URL ++ "/uploads/" ++ pid ++ "/" ++ uploadFilename u) := by
    simp only [uploadUrls, Option.getD_some, List.map_map]
    exact List.map_congr_left (fun u hu => hurl u hu)
  refine ⟨?_, by rw [hmap, List.length_map], ?_⟩
  · unfold postUpload
    rw [hmap, List.map_map]
    rfl
  · intro i u hu
    refine ⟨rfl, rfl, ?_⟩
    rw [hmap, List.getElem?_map, hu]
    rfl

/-- C8 at a concrete input: two files for `p1`, one with and one without an
extension, with the URLs written out. -/
theorem upload_urls_in_order_witness :
    (∀ u ∈ [({ millis := 1700000000000, id := "abcdefghij", originalname := "a.png" } : Upload),
             { millis := 1700000000001, id := "ABCDEFGHJK", originalname := "notes" }],
        isNanoid u.id) ∧
    (postUpload "https://example.com" "p1"
        (some ([({ millis := 1700000000000, id := "abcdefghij", originalname := "a.png" } : Upload),
                { millis := 1700000000001, id := "ABCDEFGHJK", originalname := "notes" }].map
          (storedFile "/srv/storage/uploads" "p1")))
      = Response.json 200 (obj [("uploaded",
          arr ([({ millis := 1700000000000, id := "abcdefghij", originalname := "a.png" } : Upload),
                { millis := 1700000000001, id := "ABCDEFGHJK", originalname := "notes" }].map
            (fun u => str ("https://example.com" ++ "/uploads/" ++ "p1" ++ "/"
              ++ uploadFilename u))))]) ∧
      (uploadUrls "https://example.com" "p1"
        (some ([({ millis := 1700000000000, id := "abcdefghij", originalname := "a.png" } : Upload),
                { millis := 1700000000001, id := "ABCDEFGHJK", originalname := "notes" }].map
          (storedFile "/srv/storage/uploads" "p1")))).length = 2) ∧
    (storedFile "/srv/storage/uploads" "p1"
        { millis := 1700000000000, id := "abcdefghij", originalname := "a.png" }).path
      = "/srv/storage/uploads/p1/1700000000000_abcdefghij.png" ∧
    postUpload "https://example.com" "p1"
        (some ([({ millis := 1700000000000, id := "abcdefghij", originalname := "a.png" } : Upload),
                { millis := 1700000000001, id := "ABCDEFGHJK", originalname := "notes" }].map
          (storedFile "/srv/storage/uploads" "p1")))
      = Response.json 200 (obj [("uploaded",
          arr [str "https://example.com/uploads/p1/1700000000000_abcdefghij.png",
               str "https://example.com/uploads/p1/1700000000001_ABCDEFGHJK.bin"])]) ∧
    postUpload "" "p1"
        (some [storedFile "/srv/storage/uploads" "p1"
          { millis := 1700000000000, id := "abcdefghij", originalname := "a.png" }])
      = Response.json 200 (obj [("uploaded",
          arr [str "/uploads/p1/1700000000000_abcdefghij.png"])]) := by
  have hid : ∀ u ∈ [({ millis := 1700000000000, id := "abcdefghij", originalname := "a.png" } : Upload),
             { millis := 1700000000001, id := "ABCDEFGHJK", originalname := "notes" }],
        isNanoid u.id := by
    intro u hu
    simp at hu
    rcases hu with rfl | rfl <;> decide
  have key := upload_urls_in_order "https://example.com" "/srv/storage/uploads" "p1"
    [{ millis := 1700000000000, id := "abcdefghij", originalname := "a.png" },
     { millis := 1700000000001, id := "ABCDEFGHJK", originalname := "notes" }] hid
  exact ⟨hid, ⟨key.1, key.2.1⟩, by decide, rfl, rfl⟩

end VisitAalst
